import Mathlib

/-!
# mdm6600 USB-serial driver: write pool, completion callbacks, status decoder

A shallow embedding of `drivers/usb/serial/mdm6600.c`.  Every definition below
is the translation of the C function of the same name.  Pointers to `struct urb`
are modelled by the address of the object (`Urb.addr`); the object itself is
carried by value.  The USB core is outside the driver: the value it returns from
`usb_submit_urb` is an input of every function that calls it.
-/

namespace Mdm6600

/-! ## Constants of the driver -/

/-- Number of slots per pool (`#define POOL_SZ 16`). -/
def POOL_SZ : Nat := 16

/-- The control-bearing interface (`#define MODEM_INTERFACE_NUM 4`). -/
def MODEM_INTERFACE_NUM : Nat := 4

/-- Notification code "modem status changed" (`#define BP_MODEM_STATUS 0x20a1`). -/
def BP_MODEM_STATUS : Nat := 0x20a1

/-- Notification code "response available" (`#define BP_RSP_AVAIL 0x01a1`). -/
def BP_RSP_AVAIL : Nat := 0x01a1

/-- Notification code "speed change" (`#define BP_SPEED_CHANGE 0x2aa1`). -/
def BP_SPEED_CHANGE : Nat := 0x2aa1

/-- Carrier bit of the baseband status byte (`#define BP_STATUS_CAR 0x01`). -/
def BP_STATUS_CAR : Nat := 0x01

/-- DSR bit of the baseband status byte (`#define BP_STATUS_DSR 0x02`). -/
def BP_STATUS_DSR : Nat := 0x02

/-- Break bit of the baseband status byte (`#define BP_STATUS_BREAK 0x04`). -/
def BP_STATUS_BREAK : Nat := 0x04

/-- Ring bit of the baseband status byte (`#define BP_STATUS_RNG 0x08`). -/
def BP_STATUS_RNG : Nat := 0x08

/-- Modelled from the spec: the error number behind "UnknownHandle"; `EINVAL` of
the kernel errno header, which is not part of the driver file. -/
def EINVAL : Int := 22

/-- Modelled from the spec: a "shutdown status" (transfer cancelled);
`ECONNRESET` of the kernel errno header, which is not part of the driver file. -/
def ECONNRESET : Int := 104

/-- Modelled from the spec: a "shutdown status" (transfer unlinked); `ENOENT` of
the kernel errno header, which is not part of the driver file. -/
def ENOENT : Int := 2

/-- Modelled from the spec: a "shutdown status" (transport going away);
`ESHUTDOWN` of the kernel errno header, which is not part of the driver file. -/
def ESHUTDOWN : Int := 108

/-- Modelled from the spec: a transport rejection for lack of memory; `ENOMEM`
of the kernel errno header, used only in concrete examples. -/
def ENOMEM : Int := 12

/-! ## Data model -/

/-- The fields of `struct urb` the driver reads or writes.  `addr` is the address
of the object: two pointers are equal iff the addresses are. -/
structure Urb where
  addr : Nat
  transfer_buffer : List Nat
  transfer_buffer_length : Nat
  actual_length : Nat
  status : Int
deriving DecidableEq, Repr

/-- The pool `struct mdm6600_urb_write_pool`: `busy[POOL_SZ]`, `urb[POOL_SZ]` and
`buffer_sz`.  The anchor `in_flight` of the C struct is never added to by the
driver; the handles owned by the USB core are tracked in `Usb.in_flight`. -/
structure mdm6600_urb_write_pool where
  busy : List Bool
  urb : List Urb
  buffer_sz : Int
deriving DecidableEq, Repr

/-- Modelled from the spec: the transport boundary `submit(handle) -> Result`
with its InFlightSet, "the set of transfer handles currently owned by the
transport (submitted, not yet completed)".  `in_flight` holds the addresses of
the urbs the USB core owns; `submits` records every urb handed to
`usb_submit_urb`, oldest first, as it was at the time of the call. -/
structure Usb where
  in_flight : List Nat
  submits : List Urb
deriving DecidableEq, Repr

/-- Modelled from the spec: `usb_submit_urb` of the USB core, which is not part
of the driver file.  `rc` is the value the core returns for this call (0 on
success, a negative errno otherwise); the urb is owned by the core afterwards
iff the call returned 0. -/
def usb_submit_urb (rc : Int) (t : Usb) (u : Urb) : Int × Usb :=
  (rc, { in_flight := if rc = 0 then t.in_flight ++ [u.addr] else t.in_flight,
         submits := t.submits ++ [u] })

/-- Modelled from the spec: the transport hands a completed urb back to the
driver; one entry for its address leaves the InFlightSet. -/
def usb_giveback (t : Usb) (u : Urb) : Usb :=
  { t with in_flight := t.in_flight.erase u.addr }

/-- The C loop `for (i = start; i < start + fuel; i++) if (hit i) break;`: the
value of `i` after the loop. -/
def scan (hit : Nat → Bool) : Nat → Nat → Nat
  | 0, i => i
  | fuel + 1, i => if hit i then i else scan hit fuel (i + 1)

/-- Well-formed pool, as `mdm6600_attach` builds it: both arrays have `POOL_SZ`
entries. -/
def mdm6600_urb_write_pool.WF (p : mdm6600_urb_write_pool) : Prop :=
  p.busy.length = POOL_SZ ∧ p.urb.length = POOL_SZ

instance (p : mdm6600_urb_write_pool) : Decidable p.WF := by
  unfold mdm6600_urb_write_pool.WF; infer_instance

/-- The slots hold pairwise distinct handles (each comes from its own
`usb_alloc_urb`). -/
def mdm6600_urb_write_pool.Distinct (p : mdm6600_urb_write_pool) : Prop :=
  (p.urb.map Urb.addr).Nodup

instance (p : mdm6600_urb_write_pool) : Decidable p.Distinct := by
  unfold mdm6600_urb_write_pool.Distinct; infer_instance

/-! ## Write pool -/

/-- Translation of `mdm6600_get_unused_write_urb`: scan for the first slot whose
busy flag is clear; when there is one, mark it busy and return its urb,
otherwise return NULL (`none`) and leave the pool alone. -/
def mdm6600_get_unused_write_urb (p : mdm6600_urb_write_pool) :
    Option Urb × mdm6600_urb_write_pool :=
  let i := scan (fun i => !(p.busy.getD i true)) POOL_SZ 0
  if i ≥ POOL_SZ then (none, p)
  else (p.urb[i]?, { p with busy := p.busy.set i true })

/-- Translation of `mdm6600_mark_write_urb_unused`: scan for the first slot whose
urb pointer equals `u`; when there is one, clear its busy flag and return 0,
otherwise return `-EINVAL`. -/
def mdm6600_mark_write_urb_unused (p : mdm6600_urb_write_pool) (u : Urb) :
    Int × mdm6600_urb_write_pool :=
  let i := scan (fun i => decide ((p.urb[i]?).map Urb.addr = some u.addr)) POOL_SZ 0
  if i ≥ POOL_SZ then (-EINVAL, p)
  else (0, { p with busy := p.busy.set i false })

/-- Result of `mdm6600_write_bulk_cb`: the pool afterwards, whether
`usb_serial_port_softint` was called (the producer is woken), and the two
warnings the callback may log. -/
structure WriteCbResult where
  pool : mdm6600_urb_write_pool
  softint : Bool
  warned_status : Bool
  warned_unknown : Bool
deriving DecidableEq, Repr

/-- Translation of `mdm6600_write_bulk_cb`. -/
def mdm6600_write_bulk_cb (p : mdm6600_urb_write_pool) (u : Urb) : WriteCbResult :=
  let status := u.status
  let r := mdm6600_mark_write_urb_unused p u
  { pool := r.2,
    softint := decide (status = 0),
    warned_status := decide (status ≠ 0),
    warned_unknown := decide (r.1 ≠ 0) }

/-- The C call `memcpy(dst, src, n)` on byte lists: the first `n` bytes of `dst`
are replaced by the first `n` bytes of `src`. -/
def memcpy (dst src : List Nat) (n : Nat) : List Nat :=
  src.take n ++ dst.drop n

/-- A store through the pointer `u`: the object at address `u.addr` becomes `u`. -/
def store_urb (urbs : List Urb) (u : Urb) : List Urb :=
  urbs.map (fun x => if x.addr = u.addr then u else x)

/-- Result of `mdm6600_write`: the returned `int`, the pool and the USB core
afterwards. -/
structure WriteResult where
  ret : Int
  pool : mdm6600_urb_write_pool
  usb : Usb
deriving DecidableEq, Repr

/-- Translation of `mdm6600_write`.  `num_bulk_out` is `serial->num_bulk_out`,
`buf`/`count` the caller's bytes, `submit_rc` the value `usb_submit_urb` returns
if it is called. -/
def mdm6600_write (num_bulk_out : Nat) (p : mdm6600_urb_write_pool) (t : Usb)
    (buf : List Nat) (count : Int) (submit_rc : Int) : WriteResult :=
  if count = 0 ∨ num_bulk_out = 0 then
    { ret := 0, pool := p, usb := t }
  else
    match mdm6600_get_unused_write_urb p with
    | (none, p1) => { ret := 0, pool := p1, usb := t }
    | (some u, p1) =>
      let count1 := min count p1.buffer_sz
      let u1 := { u with transfer_buffer := memcpy u.transfer_buffer buf count1.toNat,
                         transfer_buffer_length := count1.toNat }
      let p2 := { p1 with urb := store_urb p1.urb u1 }
      let r := usb_submit_urb submit_rc t u1
      if r.1 < 0 then { ret := r.1, pool := p2, usb := r.2 }
      else { ret := count1, pool := p2, usb := r.2 }

/-! ## Write pool driven by the producer and the transport -/

/-- The write side of one port: the pool and the USB core. -/
structure WriteSys where
  pool : mdm6600_urb_write_pool
  usb : Usb
deriving DecidableEq, Repr

/-- What can happen to the write side: the producer calls `mdm6600_write`, or the
USB core completes a write urb and calls `mdm6600_write_bulk_cb` with it. -/
inductive WriteEvent where
  | write (buf : List Nat) (count : Int) (submit_rc : Int)
  | complete (u : Urb)
deriving DecidableEq, Repr

/-- One event.  A completion is delivered only for a handle the USB core owns
(`none` otherwise): the core gives the handle back, then runs the callback. -/
def WriteSys.step (num_bulk_out : Nat) (s : WriteSys) : WriteEvent → Option WriteSys
  | .write buf count submit_rc =>
    let r := mdm6600_write num_bulk_out s.pool s.usb buf count submit_rc
    some { pool := r.pool, usb := r.usb }
  | .complete u =>
    if u.addr ∈ s.usb.in_flight then
      some { pool := (mdm6600_write_bulk_cb s.pool u).pool, usb := usb_giveback s.usb u }
    else none

/-- A sequence of events, left to right. -/
def WriteSys.run (num_bulk_out : Nat) (s : WriteSys) : List WriteEvent → Option WriteSys
  | [] => some s
  | e :: es =>
    match WriteSys.step num_bulk_out s e with
    | none => none
    | some s1 => WriteSys.run num_bulk_out s1 es

/-- The invariant of the write side: the pool is well formed with distinct
handles, no handle is owned twice by the USB core, and every handle the core
owns sits in a slot whose busy flag is set. -/
def WriteSys.Inv (s : WriteSys) : Prop :=
  s.pool.WF ∧ s.pool.Distinct ∧ s.usb.in_flight.Nodup ∧
  ∀ a, a ∈ s.usb.in_flight →
    ∃ i, i < POOL_SZ ∧ (s.pool.urb[i]?).map Urb.addr = some a ∧ s.pool.busy[i]? = some true

/-! ## Control status decoder -/

/-- The `TIOCM_*` modem-line masks of the kernel termios header.  The header is
not part of the driver file, so the masks are parameters of the decoder. -/
structure Tiocm where
  CAR : Nat
  DSR : Nat
  RNG : Nat
  DTR : Nat
deriving DecidableEq, Repr

/-- The masks are usable in a `u16` status word: each of carrier, DSR and ring is
a non-zero mask below `2 ^ 16`, and no two of them share a bit. -/
def Tiocm.WF (m : Tiocm) : Prop :=
  m.CAR ≠ 0 ∧ m.DSR ≠ 0 ∧ m.RNG ≠ 0 ∧
  m.CAR < 2 ^ 16 ∧ m.DSR < 2 ^ 16 ∧ m.RNG < 2 ^ 16 ∧
  m.CAR &&& m.DSR = 0 ∧ m.CAR &&& m.RNG = 0 ∧ m.DSR &&& m.RNG = 0

instance (m : Tiocm) : Decidable m.WF := by
  unfold Tiocm.WF; infer_instance

/-- The values the masks have in the kernel headers
(`TIOCM_CAR 0x040`, `TIOCM_DSR 0x100`, `TIOCM_RNG 0x080`, `TIOCM_DTR 0x002`). -/
def linux_tiocm : Tiocm := { CAR := 0x040, DSR := 0x100, RNG := 0x080, DTR := 0x002 }

/-- Truncation of an `int` result to the `u16` it is stored in. -/
def to_u16 (x : Nat) : Nat := x % 2 ^ 16

/-- The C operator `~` on a 32-bit `int`, as a bit pattern. -/
def bnot32 (x : Nat) : Nat := 2 ^ 32 - (x % 2 ^ 32 + 1)

/-- The statement `*tiocm_status |= mask` / `*tiocm_status &= ~mask`, chosen by
whether `bp_status & bit` is non-zero. -/
def apply_bit (bp_status bit mask tiocm_status : Nat) : Nat :=
  if bp_status &&& bit ≠ 0 then to_u16 (tiocm_status ||| mask)
  else to_u16 (tiocm_status &&& bnot32 mask)

/-- Translation of `mdm6600_apply_bp_status`: the new value of `*tiocm_status`. -/
def mdm6600_apply_bp_status (m : Tiocm) (bp_status : Nat) (tiocm_status : Nat) : Nat :=
  let s1 := apply_bit bp_status BP_STATUS_CAR m.CAR tiocm_status
  let s2 := apply_bit bp_status BP_STATUS_DSR m.DSR s1
  apply_bit bp_status BP_STATUS_RNG m.RNG s2

/-- Translation of `mdm6600_tiocmget`: returns `modem->tiocm_status` (the `int`
returned is the value of the `u16`, never negative). -/
def mdm6600_tiocmget (tiocm_status : Nat) : Nat := tiocm_status

/-- The line whose mask is `mask` is reported set in the bitmask `status`
(`status & mask` is non-zero). -/
def line_set (mask status : Nat) : Prop := status &&& mask ≠ 0

instance (mask status : Nat) : Decidable (line_set mask status) := by
  unfold line_set; infer_instance

/-- Result of `mdm6600_read_int_callback`: `modem->tiocm_status` and the USB core
afterwards. -/
structure IntCbResult where
  tiocm_status : Nat
  usb : Usb
deriving DecidableEq, Repr

/-- The label `exit:` of `mdm6600_read_int_callback`: the urb is resubmitted. -/
def read_int_exit (tiocm_status : Nat) (t : Usb) (u : Urb) (submit_rc : Int) : IntCbResult :=
  { tiocm_status := tiocm_status, usb := (usb_submit_urb submit_rc t u).2 }

/-- The `u16` read `*((u16 *)data)` on the little-endian target. -/
def read_u16 (data : List Nat) : Nat := data.getD 0 0 + 256 * data.getD 1 0

/-- Translation of `mdm6600_read_int_callback`.  `port_number` is `port->number`,
`tiocm_status` is `modem->tiocm_status`, `u` the completed interrupt urb (its
`transfer_buffer` is `data`), `submit_rc` what `usb_submit_urb` returns. -/
def mdm6600_read_int_callback (m : Tiocm) (port_number : Nat) (tiocm_status : Nat)
    (t : Usb) (u : Urb) (submit_rc : Int) : IntCbResult :=
  let data := u.transfer_buffer
  if u.status = 0 then
    if u.actual_length < 2 then
      read_int_exit tiocm_status t u submit_rc
    else
      let request := read_u16 data
      if request = BP_MODEM_STATUS then
        if u.actual_length < 9 then
          read_int_exit tiocm_status t u submit_rc
        else if port_number ≠ MODEM_INTERFACE_NUM then
          read_int_exit tiocm_status t u submit_rc
        else
          read_int_exit (mdm6600_apply_bp_status m (data.getD 8 0) tiocm_status) t u submit_rc
      else if request = BP_RSP_AVAIL then
        read_int_exit tiocm_status t u submit_rc
      else if request = BP_SPEED_CHANGE then
        read_int_exit tiocm_status t u submit_rc
      else
        read_int_exit tiocm_status t u submit_rc
  else if u.status = -ECONNRESET ∨ u.status = -ENOENT ∨ u.status = -ESHUTDOWN then
    read_int_exit tiocm_status t u submit_rc
  else
    read_int_exit tiocm_status t u submit_rc

/-- The status is one of the three codes the interrupt callback lists under
"urb terminated". -/
def is_shutdown_status (status : Int) : Prop :=
  status = -ECONNRESET ∨ status = -ENOENT ∨ status = -ESHUTDOWN

instance (status : Int) : Decidable (is_shutdown_status status) := by
  unfold is_shutdown_status; infer_instance

/-! ## Read pool -/

/-- The pool `struct mdm6600_urb_read_pool`: `urb[POOL_SZ]`, the anchor `pending`
(urbs waiting for the bottom half, oldest first) and `buffer_sz`.  The anchor
`in_flight` of the C struct is never added to by the driver; the handles owned
by the USB core are tracked in `Usb.in_flight`. -/
structure mdm6600_urb_read_pool where
  urb : List Urb
  pending : List Urb
  buffer_sz : Int
deriving DecidableEq, Repr

/-- Result of `mdm6600_read_bulk_cb`: the pool and the USB core afterwards, and
whether `schedule_work` was called. -/
structure ReadCbResult where
  pool : mdm6600_urb_read_pool
  usb : Usb
  work_scheduled : Bool
deriving DecidableEq, Repr

/-- Translation of `mdm6600_read_bulk_cb`: a urb with non-zero status goes
"straight back into use"; otherwise it is anchored to `pending` and the work is
scheduled. -/
def mdm6600_read_bulk_cb (r : mdm6600_urb_read_pool) (t : Usb) (u : Urb)
    (submit_rc : Int) : ReadCbResult :=
  if u.status ≠ 0 then
    { pool := r, usb := (usb_submit_urb submit_rc t u).2, work_scheduled := false }
  else
    { pool := { r with pending := r.pending ++ [u] }, usb := t, work_scheduled := true }

/-! ## Open -/

/-- Result of `mdm6600_open`: the returned `int`, `modem->tiocm_status` and the
USB core afterwards. -/
structure OpenResult where
  ret : Int
  tiocm_status : Nat
  usb : Usb
deriving DecidableEq, Repr

/-- The loop of `mdm6600_open` over `modem->read.urb[i]`: submit each urb, return
at the first non-zero `rc`.  `submit u` is what `usb_submit_urb` returns for `u`. -/
def open_read_loop (submit : Urb → Int) : List Urb → Usb → Int × Usb
  | [], t => (0, t)
  | u :: us, t =>
    let r := usb_submit_urb (submit u) t u
    if r.1 ≠ 0 then (r.1, r.2) else open_read_loop submit us r.2

/-- Translation of `mdm6600_open`.  `port_number` is `port->number`,
`interrupt_in_urb` is `port->interrupt_in_urb`, `r` the read pool. -/
def mdm6600_open (port_number : Nat) (interrupt_in_urb : Urb) (r : mdm6600_urb_read_pool)
    (t : Usb) (submit : Urb → Int) : OpenResult :=
  let r0 : Int × Usb :=
    if port_number = MODEM_INTERFACE_NUM then
      usb_submit_urb (submit interrupt_in_urb) t interrupt_in_urb
    else (0, t)
  if r0.1 ≠ 0 then
    { ret := r0.1, tiocm_status := 0, usb := r0.2 }
  else
    let r1 := open_read_loop submit (r.urb.take POOL_SZ) r0.2
    { ret := r1.1, tiocm_status := 0, usb := r1.2 }

/-! ## Close -/

/-- Modelled from the spec: `usb_kill_urb` of the USB core ("cancel"): the urb is
no longer owned by the core when the call returns. -/
def usb_kill_urb (t : Usb) (u : Urb) : Usb :=
  { t with in_flight := t.in_flight.filter (fun a => a ≠ u.addr) }

/-- Modelled from the spec: `usb_kill_anchored_urbs` of the USB core: every urb
on the anchor is killed. -/
def usb_kill_anchored_urbs (t : Usb) (anchor : List Urb) : Usb :=
  anchor.foldl usb_kill_urb t

/-- Result of `mdm6600_close`: the read pool, `modem->tiocm_status` and the USB
core afterwards. -/
structure CloseResult where
  pool : mdm6600_urb_read_pool
  tiocm_status : Nat
  usb : Usb
deriving DecidableEq, Repr

/-- Translation of `mdm6600_close`.  `write_in_flight` and `read_in_flight` are
the urbs on the two `in_flight` anchors, `interrupt_in_urb` is
`port->interrupt_in_urb`.  `cancel_work_sync` waits for the worker and changes
nothing here; `usb_scuttle_anchored_urbs` empties `pending`; the last statement
assigns 0 to `modem->tiocm_status`, whatever it held. -/
def mdm6600_close (write_in_flight read_in_flight : List Urb) (interrupt_in_urb : Urb)
    (r : mdm6600_urb_read_pool) (t : Usb) : CloseResult :=
  let t1 := usb_kill_anchored_urbs t write_in_flight
  let t2 := usb_kill_anchored_urbs t1 read_in_flight
  let t3 := usb_kill_urb t2 interrupt_in_urb
  let r1 := { r with pending := [] }
  { pool := r1, tiocm_status := 0, usb := t3 }

/-! ## DTR control -/

/-- A control request handed to `usb_control_msg`: `request`, `value`, `index`. -/
structure ControlMsg where
  request : Nat
  value : Nat
  index : Nat
deriving DecidableEq, Repr

/-- Result of `mdm6600_dtr_control` and `mdm6600_tiocmset`: the returned `int`,
the control requests issued, and how often `usb_autopm_get_interface` was
called. -/
structure DtrResult where
  ret : Int
  control_msgs : List ControlMsg
  autopm_gets : Nat
deriving DecidableEq, Repr

/-- Translation of `mdm6600_dtr_control`.  `autopm_rc` is what
`usb_autopm_get_interface` returns, `control_rc` what `usb_control_msg` returns
if it is called. -/
def mdm6600_dtr_control (port_number ctrl : Nat) (autopm_rc control_rc : Int) : DtrResult :=
  if autopm_rc < 0 then
    { ret := autopm_rc, control_msgs := [], autopm_gets := 1 }
  else
    { ret := control_rc,
      control_msgs := [{ request := 0x22, value := ctrl, index := port_number }],
      autopm_gets := 1 }

/-- Translation of `mdm6600_tiocmset`.  `set` and `clear` are the two masks,
`m.DTR` is `TIOCM_DTR`. -/
def mdm6600_tiocmset (m : Tiocm) (port_number set clear : Nat)
    (autopm_rc control_rc : Int) : DtrResult :=
  if port_number ≠ MODEM_INTERFACE_NUM then
    { ret := 0, control_msgs := [], autopm_gets := 0 }
  else if clear &&& m.DTR ≠ 0 then
    mdm6600_dtr_control port_number 0 autopm_rc control_rc
  else if set &&& m.DTR ≠ 0 then
    mdm6600_dtr_control port_number 1 autopm_rc control_rc
  else
    { ret := 0, control_msgs := [], autopm_gets := 0 }

/-! ## Read drain worker -/

/-- The tty layer as the driver uses it, over a state `σ` of the tty:
`tty_buffer_request_room`, `tty_insert_flip_string` (returns the number of bytes
it accepted) and `tty_flip_buffer_push`. -/
structure TtySink (σ : Type) where
  tty_buffer_request_room : σ → Nat → σ
  tty_insert_flip_string : σ → List Nat → Nat × σ
  tty_flip_buffer_push : σ → σ

/-- The sink never accepts more bytes than it is offered. -/
def TtySink.Bounded {σ : Type} (k : TtySink σ) : Prop :=
  ∀ st bytes, (k.tty_insert_flip_string st bytes).1 ≤ bytes.length

/-- Number of values of `size_t` on the 32-bit target. -/
def SIZE_MOD : Nat := 4294967296

/-- Subtraction of two `size_t` values (wraps around). -/
def size_sub (a b : Nat) : Nat := (a + SIZE_MOD - b % SIZE_MOD) % SIZE_MOD

/-- Result of `mdm6600_pass_to_tty`: the returned `size_t`, the tty afterwards,
and the calls of `tty_insert_flip_string` in order, each with the bytes offered
and the count accepted. -/
structure PassResult (σ : Type) where
  ret : Nat
  tty : σ
  calls : List (List Nat × Nat)

/-- Total number of bytes accepted over a list of calls. -/
def accepted (calls : List (List Nat × Nat)) : Nat := (calls.map Prod.snd).sum

/-- The loop `while (s > 0)` of `mdm6600_pass_to_tty`; `b` is the pointer into
the buffer, `s` the count still to pass, `sz` the argument of the function.  One
unit of fuel is spent per iteration; `none` when the fuel runs out. -/
def pass_to_tty_loop {σ : Type} (k : TtySink σ) (sz : Nat) :
    Nat → σ → List Nat → Nat → Option (PassResult σ)
  | 0, st, _, s =>
    if s > 0 then none else some { ret := size_sub sz s, tty := st, calls := [] }
  | fuel + 1, st, b, s =>
    if s > 0 then
      let r := k.tty_insert_flip_string st (b.take s)
      let c := r.1
      if c = 0 then
        some { ret := size_sub sz s, tty := r.2, calls := [(b.take s, c)] }
      else
        match pass_to_tty_loop k sz fuel (k.tty_flip_buffer_push r.2) (b.drop c)
            (size_sub s c) with
        | none => none
        | some r1 => some { r1 with calls := (b.take s, c) :: r1.calls }
    else some { ret := size_sub sz s, tty := st, calls := [] }

/-- Translation of `mdm6600_pass_to_tty`. -/
def mdm6600_pass_to_tty {σ : Type} (k : TtySink σ) (fuel : Nat) (st : σ) (buf : List Nat)
    (sz : Nat) : Option (PassResult σ) :=
  pass_to_tty_loop k sz fuel (k.tty_buffer_request_room st sz) buf sz

/-- Modelled from the spec: `usb_get_from_anchor` of the USB core: the oldest urb
on the anchor is taken off it, NULL (`none`) when the anchor is empty. -/
def usb_get_from_anchor (anchor : List Urb) : Option (Urb × List Urb) :=
  match anchor with
  | [] => none
  | u :: rest => some (u, rest)

/-- Result of `mdm6600_read_bulk_work`: the read pool, the tty and the USB core
afterwards. -/
structure WorkResult (σ : Type) where
  pool : mdm6600_urb_read_pool
  tty : σ
  usb : Usb

/-- Translation of `mdm6600_read_bulk_work`, the loop `while (true)`, with no
completion arriving during the run (nothing but the worker touches `pending`).
`tty_port_tty_get st` says whether the port has a tty, `submit u` is what
`usb_submit_urb` returns for `u`.  One unit of fuel is spent per iteration, and
`fuel` is also the fuel of each `mdm6600_pass_to_tty`; `none` when it runs out. -/
def mdm6600_read_bulk_work {σ : Type} (k : TtySink σ) (tty_port_tty_get : σ → Bool)
    (submit : Urb → Int) (fuel : Nat) :
    Nat → mdm6600_urb_read_pool → σ → Usb → Option (WorkResult σ)
  | 0, r, st, t =>
    match usb_get_from_anchor r.pending with
    | none => some { pool := r, tty := st, usb := t }
    | some _ => none
  | n + 1, r, st, t =>
    match usb_get_from_anchor r.pending with
    | none => some { pool := r, tty := st, usb := t }
    | some (u, rest) =>
      let r1 := { r with pending := rest }
      if tty_port_tty_get st then
        match mdm6600_pass_to_tty k fuel st u.transfer_buffer u.actual_length with
        | none => none
        | some pr =>
          mdm6600_read_bulk_work k tty_port_tty_get submit fuel n r1 pr.tty
            (usb_submit_urb (submit u) t u).2
      else
        mdm6600_read_bulk_work k tty_port_tty_get submit fuel n r1 st
          (usb_submit_urb (submit u) t u).2

/-! ## Concrete pools used in the examples -/

/-- A write urb as attach leaves it for an endpoint with `wMaxPacketSize = 8`:
address `100 + i`, a zeroed buffer of `8 * 20` bytes. -/
def sample_urb (i : Nat) : Urb :=
  { addr := 100 + i, transfer_buffer := List.replicate 160 0,
    transfer_buffer_length := 160, actual_length := 0, status := 0 }

/-- A freshly attached write pool for an endpoint with `wMaxPacketSize = 8`
(`buffer_sz = 8 * 20`): all slots free. -/
def fresh_pool : mdm6600_urb_write_pool :=
  { busy := List.replicate POOL_SZ false,
    urb := (List.range POOL_SZ).map sample_urb,
    buffer_sz := 160 }

/-- The same pool with every slot busy. -/
def full_pool : mdm6600_urb_write_pool :=
  { fresh_pool with busy := List.replicate POOL_SZ true }

/-- The USB core with nothing in flight. -/
def idle_usb : Usb := { in_flight := [], submits := [] }

/-- A run of the write side used as an example: two accepted writes around a
rejected one, then the completion of the first. -/
def sample_events : List WriteEvent :=
  [ .write [1, 2] 2 0, .write [3] 1 (-ENOMEM), .write [4, 5, 6] 3 0,
    .complete { sample_urb 0 with status := 0 } ]

/-- The state the example run ends in. -/
def sample_state : WriteSys :=
  (WriteSys.run 1 { pool := fresh_pool, usb := idle_usb } sample_events).getD
    { pool := fresh_pool, usb := idle_usb }

/-- A transport that rejects the urb at address `addr` with `rc` and accepts
every other urb. -/
def reject_at (addr : Nat) (rc : Int) (u : Urb) : Int :=
  if u.addr = addr then rc else 0

/-- A read urb as attach leaves it for an endpoint with `wMaxPacketSize = 8`:
address `200 + i`, a zeroed buffer of `8 * 2` bytes. -/
def sample_read_urb (i : Nat) : Urb :=
  { addr := 200 + i, transfer_buffer := List.replicate 16 0,
    transfer_buffer_length := 16, actual_length := 0, status := 0 }

/-- A freshly attached read pool (`buffer_sz = 8 * 2`): nothing pending. -/
def fresh_read_pool : mdm6600_urb_read_pool :=
  { urb := (List.range POOL_SZ).map sample_read_urb, pending := [], buffer_sz := 16 }

/-- The interrupt urb of the port, holding the notification `data`, completed
with `status` after `actual_length` bytes. -/
def int_urb (data : List Nat) (actual_length : Nat) (status : Int) : Urb :=
  { addr := 300, transfer_buffer := data, transfer_buffer_length := 16,
    actual_length := actual_length, status := status }

/-- A notification of sixteen bytes: the code in bytes 0 and 1 (little endian),
zeroes up to offset 8, the status byte `b` at offset 8, zeroes after. -/
def notification (code b : Nat) : List Nat :=
  [code % 256, code / 256, 0, 0, 0, 0, 0, 0, b, 0, 0, 0, 0, 0, 0, 0]

/-- A tty with limited room: the state is the room left and the bytes received so
far; a call accepts at most three bytes and never more than the room left. -/
def sample_sink : TtySink (Nat × List Nat) :=
  { tty_buffer_request_room := fun st _ => st,
    tty_insert_flip_string := fun st bytes =>
      (min 3 (min st.1 bytes.length),
        (st.1 - min 3 (min st.1 bytes.length),
         st.2 ++ bytes.take (min 3 (min st.1 bytes.length)))),
    tty_flip_buffer_push := fun st => st }

/-- A completed read urb holding `data`. -/
def filled_read_urb (i : Nat) (data : List Nat) : Urb :=
  { addr := 200 + i, transfer_buffer := data ++ List.replicate (16 - data.length) 0,
    transfer_buffer_length := 16, actual_length := data.length, status := 0 }

/-- A read pool with three completed urbs waiting for the worker. -/
def pending_read_pool : mdm6600_urb_read_pool :=
  { fresh_read_pool with
    pending := [filled_read_urb 0 [1, 2, 3, 4, 5], filled_read_urb 1 [6, 7],
                filled_read_urb 2 [8, 9, 10, 11]] }

/-! ## The scanning loop -/

theorem scan_ge (hit : Nat → Bool) (fuel i : Nat) : i ≤ scan hit fuel i := by
  induction fuel generalizing i with
  | zero => simp [scan]
  | succ n ih =>
    simp only [scan]
    split
    · exact Nat.le_refl i
    · exact Nat.le_trans (Nat.le_succ i) (ih (i + 1))

theorem scan_le (hit : Nat → Bool) (fuel i : Nat) : scan hit fuel i ≤ i + fuel := by
  induction fuel generalizing i with
  | zero => simp [scan]
  | succ n ih =>
    simp only [scan]
    split
    · omega
    · have := ih (i + 1); omega

theorem scan_hit (hit : Nat → Bool) (fuel i : Nat) (h : scan hit fuel i < i + fuel) :
    hit (scan hit fuel i) = true := by
  induction fuel generalizing i with
  | zero => simp [scan] at h
  | succ n ih =>
    simp only [scan] at h ⊢
    split
    · assumption
    · rename_i hi
      rw [if_neg hi] at h
      exact ih (i + 1) (by omega)

theorem scan_miss_before (hit : Nat → Bool) (fuel i j : Nat) (hij : i ≤ j)
    (hj : j < scan hit fuel i) : hit j = false := by
  induction fuel generalizing i with
  | zero => simp [scan] at hj; omega
  | succ n ih =>
    simp only [scan] at hj
    by_cases hi : hit i = true
    · rw [if_pos hi] at hj; omega
    · rw [if_neg hi] at hj
      by_cases hji : j = i
      · subst hji; simpa using hi
      · exact ih (i + 1) (by omega) hj

theorem scan_eq_first (hit : Nat → Bool) (fuel i k : Nat) (hik : i ≤ k) (hk : k < i + fuel)
    (hhit : hit k = true) (hmiss : ∀ j, i ≤ j → j < k → hit j = false) :
    scan hit fuel i = k := by
  have h1 : scan hit fuel i ≤ k := by
    by_contra hc
    have := scan_miss_before hit fuel i k hik (by omega)
    simp [hhit] at this
  have h2 : ¬ scan hit fuel i < k := by
    intro hc
    have h3 := scan_hit hit fuel i (by omega)
    have h4 := hmiss _ (scan_ge hit fuel i) hc
    simp [h3] at h4
  omega

theorem scan_eq_end (hit : Nat → Bool) (fuel i : Nat)
    (hmiss : ∀ j, i ≤ j → j < i + fuel → hit j = false) : scan hit fuel i = i + fuel := by
  have h1 := scan_le hit fuel i
  by_contra hc
  have h2 : scan hit fuel i < i + fuel := by omega
  have h3 := scan_hit hit fuel i h2
  have h4 := hmiss _ (scan_ge hit fuel i) h2
  simp [h3] at h4

/-! ## Acquire and release -/

/-- When every slot is busy the scan of `mdm6600_get_unused_write_urb` runs off
the end: it returns NULL and leaves the pool as it was. -/
theorem get_unused_none_of_all_busy (p : mdm6600_urb_write_pool)
    (hbusy : ∀ i, i < POOL_SZ → p.busy[i]? = some true) :
    mdm6600_get_unused_write_urb p = (none, p) := by
  have h : scan (fun i => !(p.busy.getD i true)) POOL_SZ 0 = 0 + POOL_SZ := by
    apply scan_eq_end
    intro j _ hj
    have := hbusy j (by omega)
    simp [List.getD, this]
  unfold mdm6600_get_unused_write_urb
  simp only [h]
  simp

/-- When slot `k` is the first free one, `mdm6600_get_unused_write_urb` returns
its urb and sets its busy flag. -/
theorem get_unused_of_first_free (p : mdm6600_urb_write_pool) (k : Nat) (hk : k < POOL_SZ)
    (hfree : p.busy[k]? = some false)
    (hbefore : ∀ j, j < k → p.busy[j]? = some true) :
    mdm6600_get_unused_write_urb p = (p.urb[k]?, { p with busy := p.busy.set k true }) := by
  have h : scan (fun i => !(p.busy.getD i true)) POOL_SZ 0 = k := by
    apply scan_eq_first
    · omega
    · omega
    · simp [List.getD, hfree]
    · intro j _ hj
      simp [List.getD, hbefore j hj]
  have hk2 : ¬ (k ≥ POOL_SZ) := by omega
  unfold mdm6600_get_unused_write_urb
  simp only [h, if_neg hk2]

/-- A pool with a free slot has a first free slot. -/
theorem exists_first_free (busy : List Bool) (n : Nat) (hlen : n ≤ busy.length)
    (hfree : ∃ i, i < n ∧ busy[i]? = some false) :
    ∃ k, k < n ∧ busy[k]? = some false ∧ ∀ j, j < k → busy[j]? = some true := by
  classical
  let P : Nat → Prop := fun i => i < n ∧ busy[i]? = some false
  have hex : ∃ i, P i := hfree
  refine ⟨Nat.find hex, (Nat.find_spec hex).1, (Nat.find_spec hex).2, ?_⟩
  intro j hj
  have hlt : j < n := Nat.lt_trans hj (Nat.find_spec hex).1
  have hnot : ¬ P j := Nat.find_min hex hj
  have hjl : j < busy.length := by omega
  rw [List.getElem?_eq_getElem hjl]
  cases hb : busy[j] with
  | true => rfl
  | false =>
    exfalso; apply hnot
    exact ⟨hlt, by rw [List.getElem?_eq_getElem hjl, hb]⟩

/-- When slot `k` is the first one holding the handle `u`,
`mdm6600_mark_write_urb_unused` clears the busy flag of slot `k` and returns 0. -/
theorem mark_unused_of_first_match (p : mdm6600_urb_write_pool) (u : Urb) (k : Nat)
    (hk : k < POOL_SZ) (hmatch : (p.urb[k]?).map Urb.addr = some u.addr)
    (hbefore : ∀ j, j < k → (p.urb[j]?).map Urb.addr ≠ some u.addr) :
    mdm6600_mark_write_urb_unused p u = (0, { p with busy := p.busy.set k false }) := by
  have h : scan (fun i => decide ((p.urb[i]?).map Urb.addr = some u.addr)) POOL_SZ 0 = k := by
    apply scan_eq_first
    · omega
    · omega
    · simpa using hmatch
    · intro j _ hj
      simpa using hbefore j hj
  have hk2 : ¬ (k ≥ POOL_SZ) := by omega
  unfold mdm6600_mark_write_urb_unused
  simp only [h, if_neg hk2]

/-- When no slot holds the handle `u`, `mdm6600_mark_write_urb_unused` returns
`-EINVAL` and leaves the pool as it was. -/
theorem mark_unused_of_no_match (p : mdm6600_urb_write_pool) (u : Urb)
    (hno : ∀ i, i < POOL_SZ → (p.urb[i]?).map Urb.addr ≠ some u.addr) :
    mdm6600_mark_write_urb_unused p u = (-EINVAL, p) := by
  have h : scan (fun i => decide ((p.urb[i]?).map Urb.addr = some u.addr)) POOL_SZ 0
      = 0 + POOL_SZ := by
    apply scan_eq_end
    intro j _ hj
    simpa using hno j (by omega)
  unfold mdm6600_mark_write_urb_unused
  simp only [h]
  simp

/-- In a list without duplicates, the slot holding a value is the first one
holding it. -/
theorem first_of_nodup (l : List Nat) (hnd : l.Nodup) (k j : Nat) (a : Nat)
    (hk : l[k]? = some a) (hj : l[j]? = some a) : j = k := by
  have hk1 : k < l.length := by
    by_contra hc
    rw [List.getElem?_eq_none (by omega)] at hk; cases hk
  have hj1 : j < l.length := by
    by_contra hc
    rw [List.getElem?_eq_none (by omega)] at hj; cases hj
  rw [List.getElem?_eq_getElem hk1] at hk
  rw [List.getElem?_eq_getElem hj1] at hj
  have heq : l[j] = l[k] := by
    rw [Option.some.inj hk, Option.some.inj hj]
  exact (List.Nodup.getElem_inj_iff hnd).mp heq

/-! ## Claims on `mdm6600_write` -/

/-- C1 (the code departs from it): on a freshly attached pool a write of three
bytes whose submission the transport rejects with `-ENOMEM` returns `-ENOMEM`,
but slot 0, free before the call, is still marked busy afterwards although
nothing is in flight: the busy flags differ from their value before the call. -/
theorem write_submit_failure_leaves_slot_busy :
    (mdm6600_write 1 fresh_pool idle_usb [1, 2, 3] 3 (-ENOMEM)).ret = -ENOMEM ∧
    fresh_pool.busy[0]? = some false ∧
    (mdm6600_write 1 fresh_pool idle_usb [1, 2, 3] 3 (-ENOMEM)).pool.busy[0]? = some true ∧
    (mdm6600_write 1 fresh_pool idle_usb [1, 2, 3] 3 (-ENOMEM)).pool.busy ≠ fresh_pool.busy ∧
    (mdm6600_write 1 fresh_pool idle_usb [1, 2, 3] 3 (-ENOMEM)).usb.in_flight = [] := by
  decide

/-- C2: when all 16 write slots are busy, `mdm6600_write` of a non-empty input
returns 0, hands nothing to the transport (the USB core is untouched) and leaves
the pool, hence every busy flag, unchanged. -/
theorem write_returns_zero_when_all_busy (num_bulk_out : Nat) (p : mdm6600_urb_write_pool)
    (t : Usb) (buf : List Nat) (count submit_rc : Int)
    (hbusy : ∀ i, i < POOL_SZ → p.busy[i]? = some true) (hcount : count ≠ 0) :
    (mdm6600_write num_bulk_out p t buf count submit_rc).ret = 0 ∧
    (mdm6600_write num_bulk_out p t buf count submit_rc).usb = t ∧
    (mdm6600_write num_bulk_out p t buf count submit_rc).pool.busy = p.busy := by
  unfold mdm6600_write
  by_cases hn : num_bulk_out = 0
  · simp [hn]
  · rw [if_neg (by simp [hcount, hn]), get_unused_none_of_all_busy p hbusy]
    simp

/-- Witness for C2: the full pool, a three-byte write. -/
theorem write_returns_zero_when_all_busy_witness :
    (mdm6600_write 1 full_pool idle_usb [1, 2, 3] 3 0).ret = 0 ∧
    (mdm6600_write 1 full_pool idle_usb [1, 2, 3] 3 0).usb = idle_usb ∧
    (mdm6600_write 1 full_pool idle_usb [1, 2, 3] 3 0).pool.busy = full_pool.busy :=
  write_returns_zero_when_all_busy 1 full_pool idle_usb [1, 2, 3] 3 0 (by decide) (by decide)

/-- The first `n` bytes of the buffer after `memcpy` are the first `n` source
bytes, when the source has that many. -/
theorem memcpy_take (dst src : List Nat) (n : Nat) (h : n ≤ src.length) :
    (memcpy dst src n).take n = src.take n := by
  unfold memcpy
  rw [List.take_append_of_le_length (by simp [h])]
  simp

/-- C3: a write of `count > 0` bytes on a port with a bulk-out endpoint, with a
free slot and an accepted submission, returns `min count buffer_sz`; exactly one
urb is handed to the transport, its `transfer_buffer_length` is
`min count buffer_sz` and the bytes it carries are the first
`min count buffer_sz` bytes of the input.  In particular the return value is
`buffer_sz`, not `count`, when `count > buffer_sz`. -/
theorem write_returns_min_count_buffer_sz (num_bulk_out : Nat)
    (p : mdm6600_urb_write_pool) (t : Usb) (buf : List Nat) (count submit_rc : Int)
    (hcount : 0 < count) (hn : num_bulk_out ≠ 0) (hbuf : count ≤ buf.length)
    (hwf : p.WF) (hsz : 0 ≤ p.buffer_sz)
    (hfree : ∃ i, i < POOL_SZ ∧ p.busy[i]? = some false) (hrc : 0 ≤ submit_rc) :
    (mdm6600_write num_bulk_out p t buf count submit_rc).ret = min count p.buffer_sz ∧
    (∃ u, (mdm6600_write num_bulk_out p t buf count submit_rc).usb.submits = t.submits ++ [u] ∧
      (u.transfer_buffer_length : Int) = min count p.buffer_sz ∧
      u.transfer_buffer.take u.transfer_buffer_length
        = buf.take (min count p.buffer_sz).toNat) ∧
    (p.buffer_sz < count →
      (mdm6600_write num_bulk_out p t buf count submit_rc).ret = p.buffer_sz) := by
  obtain ⟨k, hk, hkfree, hkbefore⟩ := exists_first_free p.busy POOL_SZ (by rw [hwf.1]) hfree
  have hkl : k < p.urb.length := by rw [hwf.2]; exact hk
  have hget := get_unused_of_first_free p k hk hkfree hkbefore
  rw [List.getElem?_eq_getElem hkl] at hget
  have hret : (mdm6600_write num_bulk_out p t buf count submit_rc).ret
      = min count p.buffer_sz := by
    unfold mdm6600_write
    rw [if_neg (by simp [hn]; omega), hget]
    simp only [usb_submit_urb]
    rw [if_neg (by omega)]
  refine ⟨hret, ?_, ?_⟩
  · refine ⟨{ p.urb[k] with
        transfer_buffer := memcpy p.urb[k].transfer_buffer buf (min count p.buffer_sz).toNat,
        transfer_buffer_length := (min count p.buffer_sz).toNat }, ?_, ?_, ?_⟩
    · unfold mdm6600_write
      rw [if_neg (by simp [hn]; omega), hget]
      simp only [usb_submit_urb]
      rw [if_neg (by omega)]
    · simp only
      omega
    · simp only
      apply memcpy_take
      omega
  · intro hlt
    rw [hret]
    omega

set_option maxRecDepth 100000 in
/-- Witness for C3: two hundred bytes into a fresh pool whose buffers hold 160. -/
theorem write_returns_min_count_buffer_sz_witness :
    (mdm6600_write 1 fresh_pool idle_usb (List.range 200) 200 0).ret
      = min 200 fresh_pool.buffer_sz ∧
    (∃ u, (mdm6600_write 1 fresh_pool idle_usb (List.range 200) 200 0).usb.submits
        = idle_usb.submits ++ [u] ∧
      (u.transfer_buffer_length : Int) = min 200 fresh_pool.buffer_sz ∧
      u.transfer_buffer.take u.transfer_buffer_length
        = (List.range 200).take (min 200 fresh_pool.buffer_sz).toNat) ∧
    (fresh_pool.buffer_sz < 200 →
      (mdm6600_write 1 fresh_pool idle_usb (List.range 200) 200 0).ret
        = fresh_pool.buffer_sz) :=
  write_returns_min_count_buffer_sz 1 fresh_pool idle_usb (List.range 200) 200 0
    (by decide) (by decide) (by decide) (by decide) (by decide) ⟨0, by decide, by decide⟩
    (by decide)

/-! ## The in-flight invariant of the write side -/

/-- A store through a urb pointer does not move any urb. -/
theorem store_urb_addr (urbs : List Urb) (u : Urb) :
    (store_urb urbs u).map Urb.addr = urbs.map Urb.addr := by
  unfold store_urb
  rw [List.map_map]
  apply List.map_congr_left
  intro x _
  by_cases h : x.addr = u.addr
  · simp [h]
  · simp [h]

theorem store_urb_getElem?_addr (urbs : List Urb) (u : Urb) (i : Nat) :
    ((store_urb urbs u)[i]?).map Urb.addr = (urbs[i]?).map Urb.addr := by
  rw [← List.getElem?_map, ← List.getElem?_map, store_urb_addr]

theorem store_urb_length (urbs : List Urb) (u : Urb) :
    (store_urb urbs u).length = urbs.length := by
  simp [store_urb]

/-- What `mdm6600_write` does to the state: nothing, or it takes the first free
slot `k`, marks it busy, fills the urb of that slot and hands it to
`usb_submit_urb`. -/
theorem write_state_cases (num_bulk_out : Nat) (p : mdm6600_urb_write_pool) (t : Usb)
    (buf : List Nat) (count submit_rc : Int) (hwf : p.WF) :
    ((mdm6600_write num_bulk_out p t buf count submit_rc).pool = p ∧
      (mdm6600_write num_bulk_out p t buf count submit_rc).usb = t) ∨
    ∃ k u1, k < POOL_SZ ∧ p.busy[k]? = some false ∧
      (p.urb[k]?).map Urb.addr = some u1.addr ∧
      (mdm6600_write num_bulk_out p t buf count submit_rc).pool
        = { p with busy := p.busy.set k true, urb := store_urb p.urb u1 } ∧
      (mdm6600_write num_bulk_out p t buf count submit_rc).usb
        = (usb_submit_urb submit_rc t u1).2 := by
  by_cases hc : count = 0 ∨ num_bulk_out = 0
  · left
    unfold mdm6600_write
    rw [if_pos hc]
    exact ⟨rfl, rfl⟩
  · by_cases hfree : ∃ i, i < POOL_SZ ∧ p.busy[i]? = some false
    · right
      obtain ⟨k, hk, hkfree, hkbefore⟩ :=
        exists_first_free p.busy POOL_SZ (by rw [hwf.1]) hfree
      have hkl : k < p.urb.length := by rw [hwf.2]; exact hk
      have hget := get_unused_of_first_free p k hk hkfree hkbefore
      rw [List.getElem?_eq_getElem hkl] at hget
      refine ⟨k, { p.urb[k] with
          transfer_buffer := memcpy p.urb[k].transfer_buffer buf (min count p.buffer_sz).toNat,
          transfer_buffer_length := (min count p.buffer_sz).toNat }, hk, hkfree, ?_, ?_, ?_⟩
      · rw [List.getElem?_eq_getElem hkl]; rfl
      · unfold mdm6600_write
        rw [if_neg hc, hget]
        simp only
        split <;> rfl
      · unfold mdm6600_write
        rw [if_neg hc, hget]
        simp only
        split <;> rfl
    · left
      have hall : ∀ i, i < POOL_SZ → p.busy[i]? = some true := by
        intro i hi
        have hil : i < p.busy.length := by rw [hwf.1]; exact hi
        rw [List.getElem?_eq_getElem hil]
        cases hb : p.busy[i] with
        | true => rfl
        | false =>
          exfalso; apply hfree
          exact ⟨i, hi, by rw [List.getElem?_eq_getElem hil, hb]⟩
      unfold mdm6600_write
      rw [if_neg hc, get_unused_none_of_all_busy p hall]
      exact ⟨rfl, rfl⟩

/-- Two slots of a pool with distinct handles that hold the same address are the
same slot. -/
theorem slot_unique (p : mdm6600_urb_write_pool) (hd : p.Distinct) (i j a : Nat)
    (hi : (p.urb[i]?).map Urb.addr = some a) (hj : (p.urb[j]?).map Urb.addr = some a) :
    j = i := by
  rw [← List.getElem?_map] at hi hj
  exact first_of_nodup (p.urb.map Urb.addr) hd i j a hi hj

/-- A write keeps the invariant. -/
theorem write_preserves_inv (num_bulk_out : Nat) (s : WriteSys) (buf : List Nat)
    (count submit_rc : Int) (hinv : s.Inv) :
    WriteSys.Inv
      { pool := (mdm6600_write num_bulk_out s.pool s.usb buf count submit_rc).pool,
        usb := (mdm6600_write num_bulk_out s.pool s.usb buf count submit_rc).usb } := by
  obtain ⟨hwf, hd, hnd, hslots⟩ := hinv
  rcases write_state_cases num_bulk_out s.pool s.usb buf count submit_rc hwf with
    ⟨hp, ht⟩ | ⟨k, u1, hk, hkfree, hkaddr, hp, ht⟩
  · rw [hp, ht]; exact ⟨hwf, hd, hnd, hslots⟩
  · rw [hp, ht]
    have hkl : k < s.pool.busy.length := by rw [hwf.1]; exact hk
    have hnotin : u1.addr ∉ s.usb.in_flight := by
      intro hin
      obtain ⟨i, _, hia, hib⟩ := hslots _ hin
      have := slot_unique s.pool hd k i u1.addr hkaddr hia
      subst this
      rw [hkfree] at hib
      cases hib
    have hkeep : ∀ a, a ∈ s.usb.in_flight →
        ∃ i, i < POOL_SZ ∧ ((store_urb s.pool.urb u1)[i]?).map Urb.addr = some a ∧
          (s.pool.busy.set k true)[i]? = some true := by
      intro a ha
      obtain ⟨i, hi, hia, hib⟩ := hslots a ha
      refine ⟨i, hi, by rw [store_urb_getElem?_addr]; exact hia, ?_⟩
      rw [List.getElem?_set]
      by_cases hki : k = i
      · subst hki
        rw [if_pos rfl, if_pos hkl]
      · rw [if_neg hki]; exact hib
    refine ⟨⟨by simp [hwf.1], by simp [store_urb_length, hwf.2]⟩, ?_, ?_, ?_⟩
    · show ((store_urb s.pool.urb u1).map Urb.addr).Nodup
      rw [store_urb_addr]; exact hd
    · simp only [usb_submit_urb]
      split
      · exact List.Nodup.append hnd (List.nodup_singleton _) (by simpa using hnotin)
      · exact hnd
    · intro a ha
      simp only [usb_submit_urb] at ha
      split at ha
      · rcases List.mem_append.mp ha with h1 | h1
        · exact hkeep a h1
        · have hau : a = u1.addr := by simpa using h1
          subst hau
          refine ⟨k, hk, by rw [store_urb_getElem?_addr]; exact hkaddr, ?_⟩
          rw [List.getElem?_set]
          simp [hkl]
      · exact hkeep a ha

/-- The completion of a handle the USB core owns keeps the invariant. -/
theorem complete_preserves_inv (s : WriteSys) (u : Urb) (hinv : s.Inv)
    (hin : u.addr ∈ s.usb.in_flight) :
    WriteSys.Inv
      { pool := (mdm6600_write_bulk_cb s.pool u).pool, usb := usb_giveback s.usb u } := by
  obtain ⟨hwf, hd, hnd, hslots⟩ := hinv
  obtain ⟨k, hk, hka, _⟩ := hslots _ hin
  have hmark := mark_unused_of_first_match s.pool u k hk hka (by
    intro j hj hja
    have := slot_unique s.pool hd k j u.addr hka hja
    omega)
  have hpool : (mdm6600_write_bulk_cb s.pool u).pool
      = { s.pool with busy := s.pool.busy.set k false } := by
    simp [mdm6600_write_bulk_cb, hmark]
  rw [hpool]
  refine ⟨⟨by simp [hwf.1], hwf.2⟩, hd, ?_, ?_⟩
  · exact List.Nodup.erase _ hnd
  · intro a ha
    have ha2 := (List.Nodup.mem_erase_iff hnd).mp ha
    obtain ⟨i, hi, hia, hib⟩ := hslots a ha2.2
    refine ⟨i, hi, hia, ?_⟩
    show (s.pool.busy.set k false)[i]? = some true
    have hki : k ≠ i := by
      intro h
      subst h
      rw [hka] at hia
      exact ha2.1 (Option.some.inj hia).symm
    rw [List.getElem?_set]
    simp [hki, hib]

/-- Every event keeps the invariant. -/
theorem step_preserves_inv (num_bulk_out : Nat) (s s1 : WriteSys) (e : WriteEvent)
    (hinv : s.Inv) (hstep : WriteSys.step num_bulk_out s e = some s1) : s1.Inv := by
  cases e with
  | write buf count submit_rc =>
    simp only [WriteSys.step, Option.some.injEq] at hstep
    rw [← hstep]
    exact write_preserves_inv num_bulk_out s buf count submit_rc hinv
  | complete u =>
    simp only [WriteSys.step] at hstep
    split at hstep
    · rename_i hin
      simp only [Option.some.injEq] at hstep
      rw [← hstep]
      exact complete_preserves_inv s u hinv hin
    · cases hstep

/-- Every run keeps the invariant. -/
theorem run_preserves_inv (num_bulk_out : Nat) (evs : List WriteEvent) (s s1 : WriteSys)
    (hinv : s.Inv) (hrun : WriteSys.run num_bulk_out s evs = some s1) : s1.Inv := by
  induction evs generalizing s with
  | nil =>
    simp only [WriteSys.run, Option.some.injEq] at hrun
    rw [← hrun]; exact hinv
  | cons e es ih =>
    simp only [WriteSys.run] at hrun
    cases hstep : WriteSys.step num_bulk_out s e with
    | none => rw [hstep] at hrun; cases hrun
    | some s2 =>
      rw [hstep] at hrun
      exact ih s2 (step_preserves_inv num_bulk_out s s2 e hinv hstep) hrun

/-- Under the invariant at most `POOL_SZ` handles are in flight. -/
theorem inv_in_flight_le (s : WriteSys) (hinv : s.Inv) :
    s.usb.in_flight.length ≤ POOL_SZ := by
  obtain ⟨hwf, _, hnd, hslots⟩ := hinv
  have hsub : s.usb.in_flight ⊆ s.pool.urb.map Urb.addr := by
    intro a ha
    obtain ⟨i, _, hia, _⟩ := hslots a ha
    rw [← List.getElem?_map] at hia
    exact List.getElem?_mem hia
  have := (List.Nodup.subperm hnd hsub).length_le
  simpa [hwf.2] using this

/-- C4: in every state reached from a port with nothing in flight (in particular
a freshly attached one, all slots free) whose slots hold distinct handles, by
any sequence of `mdm6600_write` calls and completions of in-flight handles:
every in-flight write handle sits in a slot marked busy, no handle is in flight
twice, at most 16 handles are in flight, and the urb a further write hands to
the transport is never one that is in flight. -/
theorem in_flight_write_handles_are_busy (num_bulk_out : Nat) (p0 : mdm6600_urb_write_pool)
    (t0 : Usb) (evs : List WriteEvent) (s : WriteSys)
    (hwf : p0.WF) (hd : p0.Distinct) (hfree : ∀ i, i < POOL_SZ → p0.busy[i]? = some false)
    (ht0 : t0.in_flight = [])
    (hrun : WriteSys.run num_bulk_out { pool := p0, usb := t0 } evs = some s) :
    (∀ a, a ∈ s.usb.in_flight →
      ∃ i, i < POOL_SZ ∧ (s.pool.urb[i]?).map Urb.addr = some a ∧
        s.pool.busy[i]? = some true) ∧
    s.usb.in_flight.Nodup ∧
    s.usb.in_flight.length ≤ 16 ∧
    (∀ buf count submit_rc u,
      (mdm6600_write num_bulk_out s.pool s.usb buf count submit_rc).usb.submits
        = s.usb.submits ++ [u] → u.addr ∉ s.usb.in_flight) := by
  have _ := hfree
  have hinit : WriteSys.Inv { pool := p0, usb := t0 } := by
    refine ⟨hwf, hd, ?_, ?_⟩
    · show t0.in_flight.Nodup
      rw [ht0]; exact List.nodup_nil
    · intro a ha
      have : a ∈ t0.in_flight := ha
      rw [ht0] at this
      cases this
  have hinv := run_preserves_inv num_bulk_out evs _ s hinit hrun
  refine ⟨hinv.2.2.2, hinv.2.2.1, inv_in_flight_le s hinv, ?_⟩
  intro buf count submit_rc u hsub hin
  rcases write_state_cases num_bulk_out s.pool s.usb buf count submit_rc hinv.1 with
    ⟨_, ht⟩ | ⟨k, u1, _, hkfree, hkaddr, _, ht⟩
  · rw [ht] at hsub
    have := congrArg List.length hsub
    simp at this
  · rw [ht] at hsub
    simp only [usb_submit_urb] at hsub
    have hu : u1 = u := by simpa using hsub
    subst hu
    obtain ⟨i, _, hia, hib⟩ := hinv.2.2.2 _ hin
    have := slot_unique s.pool hinv.2.1 k i u1.addr hkaddr hia
    subst this
    rw [hkfree] at hib
    cases hib

set_option maxRecDepth 100000 in
/-- Witness for C4: the example run ends with exactly the third handle in
flight, and the invariant holds there. -/
theorem in_flight_write_handles_are_busy_witness :
    WriteSys.run 1 { pool := fresh_pool, usb := idle_usb } sample_events = some sample_state ∧
    sample_state.usb.in_flight = [102] ∧
    ((∀ a, a ∈ sample_state.usb.in_flight →
      ∃ i, i < POOL_SZ ∧ (sample_state.pool.urb[i]?).map Urb.addr = some a ∧
        sample_state.pool.busy[i]? = some true) ∧
    sample_state.usb.in_flight.Nodup ∧
    sample_state.usb.in_flight.length ≤ 16 ∧
    (∀ buf count submit_rc u,
      (mdm6600_write 1 sample_state.pool sample_state.usb buf count submit_rc).usb.submits
        = sample_state.usb.submits ++ [u] → u.addr ∉ sample_state.usb.in_flight)) :=
  ⟨by decide, by decide,
    in_flight_write_handles_are_busy 1 fresh_pool idle_usb sample_events sample_state
      (by decide) (by decide) (by decide) (by decide) (by decide)⟩

/-! ## Claims on acquire and release -/

/-- Writing back the value a slot already holds changes nothing. -/
theorem set_same (l : List Bool) (k : Nat) (b : Bool) (h : l[k]? = some b) : l.set k b = l := by
  induction l generalizing k with
  | nil => rfl
  | cons x xs ih =>
    cases k with
    | zero =>
      simp at h
      simp [h]
    | succ n =>
      simp at h
      simp [ih n h]

/-- C5: in a well-formed pool with distinct handles and a free slot,
`mdm6600_get_unused_write_urb` returns a handle, and releasing that handle at
once with `mdm6600_mark_write_urb_unused` returns 0 and gives back the pool as
it was: the busy flags, and so the number of free slots, are as before the
acquire. -/
theorem acquire_then_release_restores_busy (p : mdm6600_urb_write_pool)
    (hwf : p.WF) (hd : p.Distinct) (hfree : ∃ i, i < POOL_SZ ∧ p.busy[i]? = some false) :
    ∃ u, (mdm6600_get_unused_write_urb p).1 = some u ∧
      (mdm6600_mark_write_urb_unused (mdm6600_get_unused_write_urb p).2 u).1 = 0 ∧
      (mdm6600_mark_write_urb_unused (mdm6600_get_unused_write_urb p).2 u).2.busy = p.busy ∧
      (mdm6600_mark_write_urb_unused (mdm6600_get_unused_write_urb p).2 u).2 = p ∧
      ((mdm6600_mark_write_urb_unused (mdm6600_get_unused_write_urb p).2 u).2.busy.count false
        = p.busy.count false) := by
  obtain ⟨k, hk, hkfree, hkbefore⟩ := exists_first_free p.busy POOL_SZ (by rw [hwf.1]) hfree
  have hkl : k < p.urb.length := by rw [hwf.2]; exact hk
  have hget := get_unused_of_first_free p k hk hkfree hkbefore
  rw [List.getElem?_eq_getElem hkl] at hget
  have hka : (p.urb[k]?).map Urb.addr = some p.urb[k].addr := by
    rw [List.getElem?_eq_getElem hkl]; rfl
  have hmark := mark_unused_of_first_match { p with busy := p.busy.set k true } p.urb[k] k hk
    hka (by
      intro j hj hja
      have := slot_unique p hd k j p.urb[k].addr hka hja
      omega)
  have hback : (({ p with busy := p.busy.set k true } : mdm6600_urb_write_pool).busy.set
      k false) = p.busy := by
    show (p.busy.set k true).set k false = p.busy
    rw [List.set_set, set_same p.busy k false hkfree]
  rw [hback] at hmark
  refine ⟨p.urb[k], ?_, ?_, ?_, ?_, ?_⟩ <;> rw [hget] <;> simp only [hmark]

/-- Witness for C5: the pool the example run ends in (slot 0 free, slots 1 and 2
busy). -/
theorem acquire_then_release_restores_busy_witness :
    ∃ u, (mdm6600_get_unused_write_urb sample_state.pool).1 = some u ∧
      (mdm6600_mark_write_urb_unused (mdm6600_get_unused_write_urb sample_state.pool).2 u).1 = 0 ∧
      (mdm6600_mark_write_urb_unused (mdm6600_get_unused_write_urb sample_state.pool).2 u).2.busy
        = sample_state.pool.busy ∧
      (mdm6600_mark_write_urb_unused (mdm6600_get_unused_write_urb sample_state.pool).2 u).2
        = sample_state.pool ∧
      ((mdm6600_mark_write_urb_unused
          (mdm6600_get_unused_write_urb sample_state.pool).2 u).2.busy.count false
        = sample_state.pool.busy.count false) :=
  acquire_then_release_restores_busy sample_state.pool (by decide) (by decide)
    ⟨0, by decide, by decide⟩

/-- C6: `mdm6600_mark_write_urb_unused` on a handle stored in none of the 16
slots returns `-EINVAL` and leaves the pool, hence every busy flag, unchanged;
on a handle whose (first) slot is `i` it returns 0, the busy flag of slot `i` is
clear afterwards and the flag of every other slot is what it was. -/
theorem release_unknown_handle_fails (p : mdm6600_urb_write_pool) (u : Urb) :
    ((∀ i, i < POOL_SZ → (p.urb[i]?).map Urb.addr ≠ some u.addr) →
      (mdm6600_mark_write_urb_unused p u).1 = -EINVAL ∧
      (mdm6600_mark_write_urb_unused p u).2.busy = p.busy ∧
      (mdm6600_mark_write_urb_unused p u).2 = p) ∧
    (∀ i, i < POOL_SZ → i < p.busy.length → (p.urb[i]?).map Urb.addr = some u.addr →
      (∀ j, j < i → (p.urb[j]?).map Urb.addr ≠ some u.addr) →
      (mdm6600_mark_write_urb_unused p u).1 = 0 ∧
      (mdm6600_mark_write_urb_unused p u).2.busy = p.busy.set i false ∧
      (mdm6600_mark_write_urb_unused p u).2.busy[i]? = some false ∧
      (∀ j, j ≠ i → (mdm6600_mark_write_urb_unused p u).2.busy[j]? = p.busy[j]?)) := by
  constructor
  · intro hno
    rw [mark_unused_of_no_match p u hno]
    exact ⟨rfl, rfl, rfl⟩
  · intro i hi hil hmatch hbefore
    rw [mark_unused_of_first_match p u i hi hmatch hbefore]
    refine ⟨rfl, rfl, ?_, ?_⟩
    · show (p.busy.set i false)[i]? = some false
      rw [List.getElem?_set, if_pos rfl, if_pos hil]
    · intro j hj
      show (p.busy.set i false)[j]? = p.busy[j]?
      rw [List.getElem?_set, if_neg (fun h => hj h.symm)]

/-- Witness for C6: a handle at an address no slot holds, and the handle of
slot 3 of the full pool. -/
theorem release_unknown_handle_fails_witness :
    ((mdm6600_mark_write_urb_unused full_pool (sample_urb 99)).1 = -EINVAL ∧
      (mdm6600_mark_write_urb_unused full_pool (sample_urb 99)).2.busy = full_pool.busy ∧
      (mdm6600_mark_write_urb_unused full_pool (sample_urb 99)).2 = full_pool) ∧
    ((mdm6600_mark_write_urb_unused full_pool (sample_urb 3)).1 = 0 ∧
      (mdm6600_mark_write_urb_unused full_pool (sample_urb 3)).2.busy
        = full_pool.busy.set 3 false ∧
      (mdm6600_mark_write_urb_unused full_pool (sample_urb 3)).2.busy[3]? = some false ∧
      (∀ j, j ≠ 3 → (mdm6600_mark_write_urb_unused full_pool (sample_urb 3)).2.busy[j]?
        = full_pool.busy[j]?)) :=
  ⟨(release_unknown_handle_fails full_pool (sample_urb 99)).1 (by decide),
   (release_unknown_handle_fails full_pool (sample_urb 3)).2 3 (by decide) (by decide)
     (by decide) (by decide)⟩

/-! ## Bit arithmetic of the status decoder -/

theorem and_to_u16 (x mask : Nat) (h : mask < 2 ^ 16) : to_u16 x &&& mask = x &&& mask := by
  apply Nat.eq_of_testBit_eq
  intro i
  simp only [to_u16, Nat.testBit_and, Nat.testBit_mod_two_pow]
  by_cases hi : i < 16
  · simp [hi]
  · have h2 : mask < 2 ^ i :=
      Nat.lt_of_lt_of_le h (Nat.pow_le_pow_right (by decide) (by omega))
    simp [Nat.testBit_lt_two_pow h2]

theorem bnot32_testBit (mask i : Nat) (h : mask < 2 ^ 16) :
    (bnot32 mask).testBit i = (decide (i < 32) && !mask.testBit i) := by
  have h32 : mask < 2 ^ 32 := Nat.lt_of_lt_of_le h (by decide)
  unfold bnot32
  rw [Nat.mod_eq_of_lt h32]
  exact Nat.testBit_two_pow_sub_succ h32 i

theorem testBit_of_lt_16 (mask i : Nat) (h : mask < 2 ^ 16) (hb : mask.testBit i = true) :
    i < 16 := by
  by_contra hi
  have h2 : mask < 2 ^ i :=
    Nat.lt_of_lt_of_le h (Nat.pow_le_pow_right (by decide) (by omega))
  rw [Nat.testBit_lt_two_pow h2] at hb
  cases hb

/-- After `apply_bit` the bits of `mask` are all set or all clear, as the tested
bit of `bp_status` says. -/
theorem apply_bit_same (bp_status bit mask s : Nat) (h : mask < 2 ^ 16) :
    apply_bit bp_status bit mask s &&& mask = if bp_status &&& bit ≠ 0 then mask else 0 := by
  unfold apply_bit
  by_cases hb : bp_status &&& bit ≠ 0
  · rw [if_pos hb, if_pos hb, and_to_u16 _ _ h]
    apply Nat.eq_of_testBit_eq
    intro i
    simp only [Nat.testBit_and, Nat.testBit_or]
    cases s.testBit i <;> cases mask.testBit i <;> rfl
  · rw [if_neg hb, if_neg hb, and_to_u16 _ _ h]
    apply Nat.eq_of_testBit_eq
    intro i
    simp only [Nat.testBit_and, bnot32_testBit mask i h, Nat.zero_testBit]
    cases s.testBit i <;> cases mask.testBit i <;> simp

/-- The statement `apply_bit` for one mask leaves the bits of a disjoint mask alone. -/
theorem apply_bit_other (bp_status bit mask other s : Nat) (h : mask < 2 ^ 16)
    (ho : other < 2 ^ 16) (hdisj : mask &&& other = 0) :
    apply_bit bp_status bit mask s &&& other = s &&& other := by
  have hbits : ∀ i, (mask.testBit i && other.testBit i) = false := by
    intro i
    rw [← Nat.testBit_and, hdisj, Nat.zero_testBit]
  unfold apply_bit
  split
  · rw [and_to_u16 _ _ ho]
    apply Nat.eq_of_testBit_eq
    intro i
    simp only [Nat.testBit_and, Nat.testBit_or]
    have := hbits i
    revert this
    cases s.testBit i <;> cases mask.testBit i <;> cases other.testBit i <;> simp
  · rw [and_to_u16 _ _ ho]
    apply Nat.eq_of_testBit_eq
    intro i
    simp only [Nat.testBit_and, bnot32_testBit mask i h]
    have := hbits i
    by_cases hoi : other.testBit i = true
    · have hi : i < 16 := testBit_of_lt_16 other i ho hoi
      have hi32 : i < 32 := by omega
      revert this
      rw [hoi]
      cases s.testBit i <;> cases mask.testBit i <;> simp [hi32]
    · have hof : other.testBit i = false := by simpa using hoi
      rw [hof]
      simp

/-- Testing `b & 2 ^ k` is testing bit `k` of `b`. -/
theorem and_two_pow_ne_zero (b k : Nat) : b &&& 2 ^ k ≠ 0 ↔ b.testBit k = true := by
  constructor
  · intro h
    by_contra hb
    apply h
    apply Nat.eq_of_testBit_eq
    intro i
    simp only [Nat.testBit_and, Nat.testBit_two_pow, Nat.zero_testBit]
    by_cases hki : k = i
    · subst hki; simpa using hb
    · simp [hki]
  · intro hb h
    have := congrArg (fun x => x.testBit k) h
    simp [Nat.testBit_two_pow, hb] at this

/-- What `mdm6600_apply_bp_status` leaves in the three masks. -/
theorem apply_bp_status_lines (m : Tiocm) (hm : m.WF) (b s : Nat) :
    (line_set m.CAR (mdm6600_apply_bp_status m b s) ↔ b.testBit 0 = true) ∧
    (line_set m.DSR (mdm6600_apply_bp_status m b s) ↔ b.testBit 1 = true) ∧
    (line_set m.RNG (mdm6600_apply_bp_status m b s) ↔ b.testBit 3 = true) := by
  obtain ⟨hc0, hd0, hr0, hc, hd, hr, hcd, hcr, hdr⟩ := hm
  have hdc : m.DSR &&& m.CAR = 0 := by rw [Nat.land_comm]; exact hcd
  have hrc : m.RNG &&& m.CAR = 0 := by rw [Nat.land_comm]; exact hcr
  have hrd : m.RNG &&& m.DSR = 0 := by rw [Nat.land_comm]; exact hdr
  unfold mdm6600_apply_bp_status line_set
  refine ⟨?_, ?_, ?_⟩
  · rw [apply_bit_other _ _ _ _ _ hr hc hrc, apply_bit_other _ _ _ _ _ hd hc hdc,
      apply_bit_same _ _ _ _ hc, ← and_two_pow_ne_zero b 0]
    show (if b &&& 1 ≠ 0 then m.CAR else 0) ≠ 0 ↔ b &&& 1 ≠ 0
    split <;> simp_all
  · rw [apply_bit_other _ _ _ _ _ hr hd hrd, apply_bit_same _ _ _ _ hd,
      ← and_two_pow_ne_zero b 1]
    show (if b &&& 2 ≠ 0 then m.DSR else 0) ≠ 0 ↔ b &&& 2 ≠ 0
    split <;> simp_all
  · rw [apply_bit_same _ _ _ _ hr, ← and_two_pow_ne_zero b 3]
    show (if b &&& 8 ≠ 0 then m.RNG else 0) ≠ 0 ↔ b &&& 8 ≠ 0
    split <;> simp_all

/-! ## Claims on the interrupt callback -/

/-- C7 (as stated it fails): on port 0, which is not the modem interface, a
successfully completed modem-status notification of length 9 whose status byte
is `0x01` leaves the carrier line clear although bit 0 of the byte is set. -/
theorem modem_status_ignored_off_modem_port :
    (int_urb (notification 0x20a1 0x01) 9 0).status = 0 ∧
    read_u16 (int_urb (notification 0x20a1 0x01) 9 0).transfer_buffer = BP_MODEM_STATUS ∧
    9 ≤ (int_urb (notification 0x20a1 0x01) 9 0).actual_length ∧
    (int_urb (notification 0x20a1 0x01) 9 0).transfer_buffer[8]? = some 0x01 ∧
    ¬ (line_set linux_tiocm.CAR
        (mdm6600_tiocmget (mdm6600_read_int_callback linux_tiocm 0 0 idle_usb
          (int_urb (notification 0x20a1 0x01) 9 0) 0).tiocm_status)
      ↔ (0x01 : Nat).testBit 0 = true) := by
  decide

/-- C7 (amended): on the modem interface (port number `MODEM_INTERFACE_NUM`),
for every prior status, after a successfully completed interrupt notification
whose code is `0x20a1`, whose length is at least 9 and whose byte at offset 8 is
`b`, `mdm6600_tiocmget` reports carrier iff bit 0 of `b` is set, DSR iff bit 1
is set and ring iff bit 3 is set. -/
theorem modem_status_decoded_on_modem_port (m : Tiocm) (hm : m.WF) (s : Nat) (t : Usb)
    (u : Urb) (submit_rc : Int) (b : Nat)
    (hstatus : u.status = 0) (hcode : read_u16 u.transfer_buffer = BP_MODEM_STATUS)
    (hlen : 9 ≤ u.actual_length) (hb : u.transfer_buffer[8]? = some b) :
    (line_set m.CAR (mdm6600_tiocmget
        (mdm6600_read_int_callback m MODEM_INTERFACE_NUM s t u submit_rc).tiocm_status)
      ↔ b.testBit 0 = true) ∧
    (line_set m.DSR (mdm6600_tiocmget
        (mdm6600_read_int_callback m MODEM_INTERFACE_NUM s t u submit_rc).tiocm_status)
      ↔ b.testBit 1 = true) ∧
    (line_set m.RNG (mdm6600_tiocmget
        (mdm6600_read_int_callback m MODEM_INTERFACE_NUM s t u submit_rc).tiocm_status)
      ↔ b.testBit 3 = true) := by
  have h2 : ¬ u.actual_length < 2 := by omega
  have h9 : ¬ u.actual_length < 9 := by omega
  have hd : u.transfer_buffer.getD 8 0 = b := by simp [List.getD, hb]
  have hcb : (mdm6600_read_int_callback m MODEM_INTERFACE_NUM s t u submit_rc).tiocm_status
      = mdm6600_apply_bp_status m b s := by
    unfold mdm6600_read_int_callback
    simp only [hstatus, if_true, if_neg h2, hcode, if_neg h9, ne_eq, not_true, if_false, hd,
      read_int_exit]
  rw [hcb]
  exact apply_bp_status_lines m hm b s

/-- Witness for C7: on port 4, with carrier, DSR and ring all set before, the
status byte `0x01` of a notification of length 9 leaves carrier set and clears
DSR and ring. -/
theorem modem_status_decoded_on_modem_port_witness :
    mdm6600_tiocmget (mdm6600_read_int_callback linux_tiocm MODEM_INTERFACE_NUM 0x1c0 idle_usb
      (int_urb (notification 0x20a1 0x01) 9 0) 0).tiocm_status = 0x040 ∧
    ((line_set linux_tiocm.CAR (mdm6600_tiocmget
        (mdm6600_read_int_callback linux_tiocm MODEM_INTERFACE_NUM 0x1c0 idle_usb
          (int_urb (notification 0x20a1 0x01) 9 0) 0).tiocm_status)
      ↔ (0x01 : Nat).testBit 0 = true) ∧
    (line_set linux_tiocm.DSR (mdm6600_tiocmget
        (mdm6600_read_int_callback linux_tiocm MODEM_INTERFACE_NUM 0x1c0 idle_usb
          (int_urb (notification 0x20a1 0x01) 9 0) 0).tiocm_status)
      ↔ (0x01 : Nat).testBit 1 = true) ∧
    (line_set linux_tiocm.RNG (mdm6600_tiocmget
        (mdm6600_read_int_callback linux_tiocm MODEM_INTERFACE_NUM 0x1c0 idle_usb
          (int_urb (notification 0x20a1 0x01) 9 0) 0).tiocm_status)
      ↔ (0x01 : Nat).testBit 3 = true)) :=
  ⟨by decide,
    modem_status_decoded_on_modem_port linux_tiocm (by decide) 0x1c0 idle_usb
      (int_urb (notification 0x20a1 0x01) 9 0) 0 0x01 (by decide) (by decide) (by decide)
      (by decide)⟩

/-- C8: the status bitmask after `mdm6600_read_int_callback` differs from the one
before only if the urb status is 0, the notification code is `0x20a1` and the
length is at least 9.  In particular a modem-status notification of length 7, a
response-available notification, a speed-change notification and a notification
with any other code leave `mdm6600_tiocmget` unchanged. -/
theorem status_changes_only_on_modem_status (m : Tiocm) (port_number s : Nat) (t : Usb)
    (u : Urb) (submit_rc : Int) :
    ((mdm6600_read_int_callback m port_number s t u submit_rc).tiocm_status ≠ s →
      u.status = 0 ∧ read_u16 u.transfer_buffer = BP_MODEM_STATUS ∧ 9 ≤ u.actual_length) ∧
    (read_u16 u.transfer_buffer = BP_MODEM_STATUS → u.actual_length = 7 →
      mdm6600_tiocmget (mdm6600_read_int_callback m port_number s t u submit_rc).tiocm_status
        = mdm6600_tiocmget s) ∧
    (read_u16 u.transfer_buffer = BP_RSP_AVAIL →
      mdm6600_tiocmget (mdm6600_read_int_callback m port_number s t u submit_rc).tiocm_status
        = mdm6600_tiocmget s) ∧
    (read_u16 u.transfer_buffer = BP_SPEED_CHANGE →
      mdm6600_tiocmget (mdm6600_read_int_callback m port_number s t u submit_rc).tiocm_status
        = mdm6600_tiocmget s) ∧
    (read_u16 u.transfer_buffer ≠ BP_MODEM_STATUS →
      mdm6600_tiocmget (mdm6600_read_int_callback m port_number s t u submit_rc).tiocm_status
        = mdm6600_tiocmget s) := by
  have main : (mdm6600_read_int_callback m port_number s t u submit_rc).tiocm_status ≠ s →
      u.status = 0 ∧ read_u16 u.transfer_buffer = BP_MODEM_STATUS ∧ 9 ≤ u.actual_length := by
    unfold mdm6600_read_int_callback
    simp only [read_int_exit]
    split_ifs <;> simp_all
  have keep : ¬ (u.status = 0 ∧ read_u16 u.transfer_buffer = BP_MODEM_STATUS ∧
      9 ≤ u.actual_length) →
      mdm6600_tiocmget (mdm6600_read_int_callback m port_number s t u submit_rc).tiocm_status
        = mdm6600_tiocmget s := by
    intro hn
    unfold mdm6600_tiocmget
    by_contra hc
    exact hn (main hc)
  refine ⟨main, ?_, ?_, ?_, ?_⟩
  · intro _ h7
    exact keep (by omega)
  · intro h
    exact keep (fun hh => by rw [h] at hh; exact absurd hh.2.1 (by decide))
  · intro h
    exact keep (fun hh => by rw [h] at hh; exact absurd hh.2.1 (by decide))
  · intro h
    exact keep (fun hh => h hh.2.1)

/-- Witness for C8: on port 4 a modem-status notification of length 7 with status
byte `0x01` leaves the empty bitmask empty, and the notification that does
change it is a successful modem-status one of length 9. -/
theorem status_changes_only_on_modem_status_witness :
    mdm6600_tiocmget (mdm6600_read_int_callback linux_tiocm 4 0 idle_usb
        (int_urb (notification 0x20a1 0x01) 7 0) 0).tiocm_status = mdm6600_tiocmget 0 ∧
    ((int_urb (notification 0x20a1 0x01) 9 0).status = 0 ∧
      read_u16 (int_urb (notification 0x20a1 0x01) 9 0).transfer_buffer = BP_MODEM_STATUS ∧
      9 ≤ (int_urb (notification 0x20a1 0x01) 9 0).actual_length) :=
  ⟨(status_changes_only_on_modem_status linux_tiocm 4 0 idle_usb
      (int_urb (notification 0x20a1 0x01) 7 0) 0).2.1 (by decide) (by decide),
   (status_changes_only_on_modem_status linux_tiocm 4 0 idle_usb
      (int_urb (notification 0x20a1 0x01) 9 0) 0).1 (by decide)⟩

/-! ## Claims on completions with a shutdown status -/

/-- C9 (as stated it fails): a completion with status `-ESHUTDOWN` is handed back
to the transport by both callbacks; with a transport that accepts it, the
interrupt urb and the read urb are in flight again afterwards. -/
theorem shutdown_completion_is_resubmitted :
    is_shutdown_status (-ESHUTDOWN) ∧
    (mdm6600_read_int_callback linux_tiocm 4 0 idle_usb
        (int_urb (notification 0 0) 0 (-ESHUTDOWN)) 0).usb.submits
      = [int_urb (notification 0 0) 0 (-ESHUTDOWN)] ∧
    (mdm6600_read_int_callback linux_tiocm 4 0 idle_usb
        (int_urb (notification 0 0) 0 (-ESHUTDOWN)) 0).usb.in_flight = [300] ∧
    (mdm6600_read_bulk_cb fresh_read_pool idle_usb
        { sample_read_urb 0 with status := -ESHUTDOWN } 0).usb.submits
      = [{ sample_read_urb 0 with status := -ESHUTDOWN }] ∧
    (mdm6600_read_bulk_cb fresh_read_pool idle_usb
        { sample_read_urb 0 with status := -ESHUTDOWN } 0).usb.in_flight = [200] := by
  decide

/-- C9 (amended): for every completion with a shutdown status (`-ECONNRESET`,
`-ENOENT` or `-ESHUTDOWN`), `mdm6600_read_int_callback` leaves the status
bitmask unchanged, and `mdm6600_read_bulk_cb` leaves the pending set unchanged,
does not schedule the worker, and hands the urb straight back to the transport
(one call of `usb_submit_urb`, on that urb). -/
theorem shutdown_completion_not_enqueued (m : Tiocm) (port_number s : Nat)
    (r : mdm6600_urb_read_pool) (t : Usb) (u : Urb) (submit_rc : Int)
    (h : is_shutdown_status u.status) :
    (mdm6600_read_int_callback m port_number s t u submit_rc).tiocm_status = s ∧
    (mdm6600_read_bulk_cb r t u submit_rc).pool.pending = r.pending ∧
    (mdm6600_read_bulk_cb r t u submit_rc).work_scheduled = false ∧
    (mdm6600_read_bulk_cb r t u submit_rc).usb.submits = t.submits ++ [u] := by
  have hne : u.status ≠ 0 := by
    rcases h with h | h | h <;> rw [h] <;> decide
  refine ⟨?_, ?_, ?_, ?_⟩
  · unfold mdm6600_read_int_callback
    simp only [if_neg hne, read_int_exit]
    split <;> rfl
  · unfold mdm6600_read_bulk_cb
    rw [if_pos hne]
  · unfold mdm6600_read_bulk_cb
    rw [if_pos hne]
  · unfold mdm6600_read_bulk_cb
    rw [if_pos hne]
    rfl

/-- Witness for C9 (amended): a read urb cancelled with `-ENOENT`. -/
theorem shutdown_completion_not_enqueued_witness :
    (mdm6600_read_int_callback linux_tiocm 4 0x040 idle_usb
        { sample_read_urb 1 with status := -ENOENT } (-ENOENT)).tiocm_status = 0x040 ∧
    (mdm6600_read_bulk_cb fresh_read_pool idle_usb
        { sample_read_urb 1 with status := -ENOENT } (-ENOENT)).pool.pending
      = fresh_read_pool.pending ∧
    (mdm6600_read_bulk_cb fresh_read_pool idle_usb
        { sample_read_urb 1 with status := -ENOENT } (-ENOENT)).work_scheduled = false ∧
    (mdm6600_read_bulk_cb fresh_read_pool idle_usb
        { sample_read_urb 1 with status := -ENOENT } (-ENOENT)).usb.submits
      = idle_usb.submits ++ [{ sample_read_urb 1 with status := -ENOENT }] :=
  shutdown_completion_not_enqueued linux_tiocm 4 0x040 fresh_read_pool idle_usb
    { sample_read_urb 1 with status := -ENOENT } (-ENOENT) (by decide)

/-! ## Claims on open -/

/-- C10 (the code departs from it): on the modem interface, with a transport
that accepts the interrupt urb and read urb 0 and rejects read urb 1 with
`-ENOMEM`, `mdm6600_open` returns `-ENOMEM` after three submissions, and the
interrupt urb (address 300) and read urb 0 (address 200) are still in flight
when it returns: nothing was cancelled. -/
theorem open_failure_leaves_handles_in_flight :
    (mdm6600_open 4 (int_urb (notification 0 0) 0 0) fresh_read_pool idle_usb
        (reject_at 201 (-ENOMEM))).ret = -ENOMEM ∧
    (mdm6600_open 4 (int_urb (notification 0 0) 0 0) fresh_read_pool idle_usb
        (reject_at 201 (-ENOMEM))).usb.submits.map Urb.addr = [300, 200, 201] ∧
    (mdm6600_open 4 (int_urb (notification 0 0) 0 0) fresh_read_pool idle_usb
        (reject_at 201 (-ENOMEM))).usb.in_flight = [300, 200] := by
  decide

/-! ## Claims on the link controller -/

/-- The status `mdm6600_open` leaves is 0 on every path. -/
theorem open_status_zero (port_number : Nat) (interrupt_in_urb : Urb)
    (r : mdm6600_urb_read_pool) (t : Usb) (submit : Urb → Int) :
    (mdm6600_open port_number interrupt_in_urb r t submit).tiocm_status = 0 := by
  unfold mdm6600_open
  simp only
  split_ifs <;> rfl

/-- C11: for every port state, `mdm6600_tiocmget` returns 0 after `mdm6600_close`,
and returns 0 after an `mdm6600_open` that follows the close, whatever the
transport answers to the submissions of that open (so also when the open
fails).  Both functions assign 0 to `modem->tiocm_status` without reading it,
so the result is the same for every prior status. -/
theorem close_then_open_resets_status (write_in_flight read_in_flight : List Urb)
    (interrupt_in_urb : Urb) (r : mdm6600_urb_read_pool) (t : Usb)
    (port_number : Nat) (submit : Urb → Int) :
    mdm6600_tiocmget
      (mdm6600_close write_in_flight read_in_flight interrupt_in_urb r t).tiocm_status = 0 ∧
    mdm6600_tiocmget
      (mdm6600_open port_number interrupt_in_urb
        (mdm6600_close write_in_flight read_in_flight interrupt_in_urb r t).pool
        (mdm6600_close write_in_flight read_in_flight interrupt_in_urb r t).usb
        submit).tiocm_status = 0 := by
  refine ⟨rfl, ?_⟩
  unfold mdm6600_tiocmget
  exact open_status_zero _ _ _ _ _

/-- C12: on every port whose number is not `MODEM_INTERFACE_NUM`, for every pair
of masks, `mdm6600_tiocmset` returns 0, issues no control request and does not
even call `usb_autopm_get_interface`. -/
theorem tiocmset_is_noop_off_modem_port (m : Tiocm) (port_number set clear : Nat)
    (autopm_rc control_rc : Int) (hport : port_number ≠ MODEM_INTERFACE_NUM) :
    (mdm6600_tiocmset m port_number set clear autopm_rc control_rc).ret = 0 ∧
    (mdm6600_tiocmset m port_number set clear autopm_rc control_rc).control_msgs = [] ∧
    (mdm6600_tiocmset m port_number set clear autopm_rc control_rc).autopm_gets = 0 := by
  unfold mdm6600_tiocmset
  rw [if_pos hport]
  exact ⟨rfl, rfl, rfl⟩

/-- Witness for C12: DTR raised on port 0, while the same call on port 4 does
issue the request. -/
theorem tiocmset_is_noop_off_modem_port_witness :
    (mdm6600_tiocmset linux_tiocm 4 linux_tiocm.DTR 0 0 0).control_msgs
      = [{ request := 0x22, value := 1, index := 4 }] ∧
    ((mdm6600_tiocmset linux_tiocm 0 linux_tiocm.DTR 0 0 0).ret = 0 ∧
    (mdm6600_tiocmset linux_tiocm 0 linux_tiocm.DTR 0 0 0).control_msgs = [] ∧
    (mdm6600_tiocmset linux_tiocm 0 linux_tiocm.DTR 0 0 0).autopm_gets = 0) :=
  ⟨by decide, tiocmset_is_noop_off_modem_port linux_tiocm 0 linux_tiocm.DTR 0 0 0 (by decide)⟩

/-! ## Claims on the write completion -/

/-- C13 (as stated it fails): the completion of the handle of slot 3 with status
`-ENOENT` frees slot 3 of the full pool, but `usb_serial_port_softint` is not
called: the producer is not woken. -/
theorem write_error_completion_does_not_wake :
    (mdm6600_write_bulk_cb full_pool { sample_urb 3 with status := -ENOENT }).pool.busy[3]?
      = some false ∧
    (mdm6600_write_bulk_cb full_pool { sample_urb 3 with status := -ENOENT }).softint
      = false := by
  decide

/-- C13 (amended): for every write completion of a handle whose slot is `i`,
whatever the completion status, `mdm6600_write_bulk_cb` clears the busy flag of
slot `i` and of no other slot; it calls `usb_serial_port_softint` exactly when
the completion status is 0. -/
theorem write_completion_frees_slot (p : mdm6600_urb_write_pool) (u : Urb) (i : Nat)
    (hi : i < POOL_SZ) (hil : i < p.busy.length)
    (hmatch : (p.urb[i]?).map Urb.addr = some u.addr)
    (hbefore : ∀ j, j < i → (p.urb[j]?).map Urb.addr ≠ some u.addr) :
    (mdm6600_write_bulk_cb p u).pool.busy[i]? = some false ∧
    (∀ j, j ≠ i → (mdm6600_write_bulk_cb p u).pool.busy[j]? = p.busy[j]?) ∧
    ((mdm6600_write_bulk_cb p u).softint = true ↔ u.status = 0) := by
  have hmark := mark_unused_of_first_match p u i hi hmatch hbefore
  have hpool : (mdm6600_write_bulk_cb p u).pool = { p with busy := p.busy.set i false } := by
    simp [mdm6600_write_bulk_cb, hmark]
  refine ⟨?_, ?_, ?_⟩
  · rw [hpool]
    show (p.busy.set i false)[i]? = some false
    rw [List.getElem?_set, if_pos rfl, if_pos hil]
  · intro j hj
    rw [hpool]
    show (p.busy.set i false)[j]? = p.busy[j]?
    rw [List.getElem?_set, if_neg (fun h => hj h.symm)]
  · simp [mdm6600_write_bulk_cb]

/-- Witness for C13 (amended): a successful completion of the handle of slot 3
of the full pool. -/
theorem write_completion_frees_slot_witness :
    (mdm6600_write_bulk_cb full_pool (sample_urb 3)).pool.busy[3]? = some false ∧
    (∀ j, j ≠ 3 →
      (mdm6600_write_bulk_cb full_pool (sample_urb 3)).pool.busy[j]? = full_pool.busy[j]?) ∧
    ((mdm6600_write_bulk_cb full_pool (sample_urb 3)).softint = true
      ↔ (sample_urb 3).status = 0) :=
  write_completion_frees_slot full_pool (sample_urb 3) 3 (by decide) (by decide) (by decide)
    (by decide)

/-! ## Claims on the drain worker -/

theorem size_sub_eq (a b : Nat) (hb : b ≤ a) (ha : a < SIZE_MOD) : size_sub a b = a - b := by
  unfold size_sub SIZE_MOD at *
  omega

theorem accepted_cons (e : List Nat × Nat) (calls : List (List Nat × Nat)) :
    accepted (e :: calls) = e.2 + accepted calls := by
  simp [accepted]

/-- The loop of `mdm6600_pass_to_tty` from the state `b`, `s`, with a sink that
never accepts more than it is offered and more fuel than bytes left. -/
theorem pass_to_tty_loop_spec {σ : Type} (k : TtySink σ) (hk : k.Bounded) (sz : Nat)
    (hsz : sz < SIZE_MOD) (fuel : Nat) :
    ∀ (st : σ) (b : List Nat) (s : Nat), s ≤ sz → s ≤ b.length → s < fuel →
    ∃ r, pass_to_tty_loop k sz fuel st b s = some r ∧
      r.ret = sz - s + accepted r.calls ∧
      accepted r.calls ≤ s ∧
      r.calls.length ≤ s + 1 ∧
      (∀ i e, r.calls[i]? = some e →
        e.1 = (b.take s).drop (accepted (r.calls.take i))) ∧
      (∀ i e, r.calls[i]? = some e → e.2 = 0 → i + 1 = r.calls.length) ∧
      ((∀ e, e ∈ r.calls → e.2 ≠ 0) → accepted r.calls = s) := by
  induction fuel with
  | zero => intro st b s _ _ hf; omega
  | succ n ih =>
    intro st b s hssz hsb hf
    by_cases hs : s > 0
    · have hc : (k.tty_insert_flip_string st (b.take s)).1 ≤ s := by
        have := hk st (b.take s)
        rw [List.length_take] at this
        omega
      by_cases hc0 : (k.tty_insert_flip_string st (b.take s)).1 = 0
      · refine ⟨{ ret := size_sub sz s, tty := (k.tty_insert_flip_string st (b.take s)).2,
                  calls := [(b.take s, (k.tty_insert_flip_string st (b.take s)).1)] }, ?_,
                ?_, ?_, ?_, ?_, ?_, ?_⟩
        · simp only [pass_to_tty_loop, if_pos hs, if_pos hc0]
        · simp only [accepted_cons, hc0]
          rw [size_sub_eq sz s hssz hsz]
          simp [accepted]
        · simp [accepted, hc0]
        · simp
        · intro i e hie
          cases i with
          | zero =>
            simp only [List.getElem?_cons_zero, Option.some.injEq] at hie
            rw [← hie]
            simp [accepted]
          | succ j => simp at hie
        · intro i e hie _
          cases i with
          | zero => rfl
          | succ j => simp at hie
        · intro hall
          exact absurd hc0 (hall _ (List.mem_singleton.mpr rfl))
      · have hcpos : 0 < (k.tty_insert_flip_string st (b.take s)).1 := Nat.pos_of_ne_zero hc0
        have hsub : size_sub s (k.tty_insert_flip_string st (b.take s)).1
            = s - (k.tty_insert_flip_string st (b.take s)).1 :=
          size_sub_eq _ _ hc (Nat.lt_of_le_of_lt hssz hsz)
        obtain ⟨r1, hr1, hret, hacc, hlen, hoff, hzero, hfull⟩ :=
          ih (k.tty_flip_buffer_push (k.tty_insert_flip_string st (b.take s)).2)
            (b.drop (k.tty_insert_flip_string st (b.take s)).1)
            (s - (k.tty_insert_flip_string st (b.take s)).1)
            (by omega) (by rw [List.length_drop]; omega) (by omega)
        refine ⟨{ r1 with calls :=
            (b.take s, (k.tty_insert_flip_string st (b.take s)).1) :: r1.calls }, ?_,
            ?_, ?_, ?_, ?_, ?_, ?_⟩
        · simp only [pass_to_tty_loop, if_pos hs, if_neg hc0, hsub, hr1]
        · simp only [accepted_cons]
          rw [hret]
          omega
        · simp only [accepted_cons]
          omega
        · simp only [List.length_cons]
          omega
        · intro i e hie
          cases i with
          | zero =>
            simp only [List.getElem?_cons_zero, Option.some.injEq] at hie
            rw [← hie]
            simp [accepted]
          | succ j =>
            simp only [List.getElem?_cons_succ] at hie
            rw [hoff j e hie, List.take_succ_cons, accepted_cons, ← List.drop_take,
              List.drop_drop]
        · intro i e hie he0
          cases i with
          | zero =>
            simp only [List.getElem?_cons_zero, Option.some.injEq] at hie
            rw [← hie] at he0
            exact absurd he0 hc0
          | succ j =>
            simp only [List.getElem?_cons_succ] at hie
            have := hzero j e hie he0
            simp only [List.length_cons]
            omega
        · intro hall
          have := hfull (fun e he => hall e (List.mem_cons_of_mem _ he))
          simp only [accepted_cons]
          omega
    · have hs0 : s = 0 := by omega
      subst hs0
      refine ⟨{ ret := size_sub sz 0, tty := st, calls := [] }, ?_, ?_, ?_, ?_, ?_, ?_, ?_⟩
      · simp [pass_to_tty_loop]
      · rw [size_sub_eq sz 0 (Nat.zero_le _) hsz]
        simp [accepted]
      · simp [accepted]
      · simp
      · intro i e hie
        simp at hie
      · intro i e hie
        simp at hie
      · intro _
        simp [accepted]

/-- C14: for a buffer of `sz` bytes and a sink that never accepts more than it is
offered, `mdm6600_pass_to_tty` returns once it has `sz + 1` units of fuel (one
per iteration): it makes at most `sz + 1` calls of `tty_insert_flip_string`,
each call is offered exactly the bytes of the buffer not accepted so far, only
the last call can have accepted zero bytes, and the value returned is the total
number of bytes accepted, at most `sz`, and equal to `sz` when no call accepted
zero. -/
theorem pass_to_tty_terminates {σ : Type} (k : TtySink σ) (st : σ) (buf : List Nat)
    (sz fuel : Nat) (hk : k.Bounded) (hbuf : sz ≤ buf.length) (hsz : sz < SIZE_MOD)
    (hfuel : sz < fuel) :
    ∃ r, mdm6600_pass_to_tty k fuel st buf sz = some r ∧
      r.calls.length ≤ sz + 1 ∧
      (∀ i e, r.calls[i]? = some e →
        e.1 = (buf.take sz).drop (accepted (r.calls.take i))) ∧
      (∀ i e, r.calls[i]? = some e → e.2 = 0 → i + 1 = r.calls.length) ∧
      r.ret = accepted r.calls ∧
      r.ret ≤ sz ∧
      ((∀ e, e ∈ r.calls → e.2 ≠ 0) → r.ret = sz) := by
  obtain ⟨r, hr, hret, hacc, hlen, hoff, hzero, hfull⟩ :=
    pass_to_tty_loop_spec k hk sz hsz fuel (k.tty_buffer_request_room st sz) buf sz
      (Nat.le_refl _) hbuf hfuel
  have hret2 : r.ret = accepted r.calls := by rw [hret]; omega
  refine ⟨r, hr, hlen, hoff, hzero, hret2, by omega, ?_⟩
  intro hall
  rw [hret2]
  exact hfull hall

/-- Witness for C14: five bytes into a tty with room for four, three bytes at
most per call: the calls are offered `[1,2,3,4,5]`, `[4,5]`, `[5]` and accept 3,
1 and 0 bytes; the function returns 4. -/
theorem pass_to_tty_terminates_witness :
    (mdm6600_pass_to_tty sample_sink 6 (4, []) [1, 2, 3, 4, 5] 5).map
        (fun r => (r.ret, r.calls))
      = some (4, [([1, 2, 3, 4, 5], 3), ([4, 5], 1), ([5], 0)]) ∧
    (∃ r, mdm6600_pass_to_tty sample_sink 6 (4, []) [1, 2, 3, 4, 5] 5 = some r ∧
      r.calls.length ≤ 5 + 1 ∧
      (∀ i e, r.calls[i]? = some e →
        e.1 = (([1, 2, 3, 4, 5] : List Nat).take 5).drop (accepted (r.calls.take i))) ∧
      (∀ i e, r.calls[i]? = some e → e.2 = 0 → i + 1 = r.calls.length) ∧
      r.ret = accepted r.calls ∧
      r.ret ≤ 5 ∧
      ((∀ e, e ∈ r.calls → e.2 ≠ 0) → r.ret = 5)) :=
  ⟨by decide,
    pass_to_tty_terminates sample_sink (4, []) [1, 2, 3, 4, 5] 5 6
      (by intro st bytes; simp only [sample_sink]; omega) (by decide) (by decide) (by decide)⟩

/-- C15: with no completion arriving during the run, a sink that never accepts
more than it is offered and enough fuel (one unit per pending handle, and more
than the length of each transfer for `mdm6600_pass_to_tty`),
`mdm6600_read_bulk_work` returns with the pending set empty and has handed to
`usb_submit_urb` exactly the handles that were pending, each once, in their
order; this for every answer of `tty_port_tty_get` (tty missing or not), every
sink of that kind (partial accepts included) and every answer of
`usb_submit_urb` (a failed resubmission does not stop the loop). -/
theorem read_bulk_work_drains_pending {σ : Type} (k : TtySink σ)
    (tty_port_tty_get : σ → Bool) (submit : Urb → Int) (fuel n : Nat)
    (r : mdm6600_urb_read_pool) (st : σ) (t : Usb) (hk : k.Bounded)
    (hbuf : ∀ u, u ∈ r.pending →
      u.actual_length ≤ u.transfer_buffer.length ∧ u.actual_length < SIZE_MOD ∧
        u.actual_length < fuel)
    (hn : r.pending.length ≤ n) :
    ∃ w, mdm6600_read_bulk_work k tty_port_tty_get submit fuel n r st t = some w ∧
      w.pool.pending = [] ∧
      w.pool.urb = r.urb ∧
      w.usb.submits = t.submits ++ r.pending ∧
      (∀ u, w.usb.submits.count u = t.submits.count u + r.pending.count u) := by
  have main : ∀ (n : Nat) (r : mdm6600_urb_read_pool) (st : σ) (t : Usb),
      (∀ u, u ∈ r.pending →
        u.actual_length ≤ u.transfer_buffer.length ∧ u.actual_length < SIZE_MOD ∧
          u.actual_length < fuel) →
      r.pending.length ≤ n →
      ∃ w, mdm6600_read_bulk_work k tty_port_tty_get submit fuel n r st t = some w ∧
        w.pool.pending = [] ∧ w.pool.urb = r.urb ∧
        w.usb.submits = t.submits ++ r.pending := by
    intro n
    induction n with
    | zero =>
      intro r st t _ hn
      have hp : r.pending = [] := List.eq_nil_of_length_eq_zero (by omega)
      refine ⟨{ pool := r, tty := st, usb := t }, ?_, hp, rfl, by simp [hp]⟩
      simp only [mdm6600_read_bulk_work, hp, usb_get_from_anchor]
    | succ m ih =>
      intro r st t hbuf hn
      cases hp : r.pending with
      | nil =>
        refine ⟨{ pool := r, tty := st, usb := t }, ?_, hp, rfl, by simp⟩
        simp only [mdm6600_read_bulk_work, hp, usb_get_from_anchor]
      | cons u rest =>
        have hu := hbuf u (by rw [hp]; exact List.mem_cons_self _ _)
        have hrest : ∀ v, v ∈ ({ r with pending := rest } : mdm6600_urb_read_pool).pending →
            v.actual_length ≤ v.transfer_buffer.length ∧ v.actual_length < SIZE_MOD ∧
              v.actual_length < fuel := by
          intro v hv
          exact hbuf v (by rw [hp]; exact List.mem_cons_of_mem _ hv)
        have hlen : ({ r with pending := rest } : mdm6600_urb_read_pool).pending.length ≤ m := by
          have : (u :: rest).length ≤ m + 1 := by rw [← hp]; exact hn
          simp only [List.length_cons] at this
          show rest.length ≤ m
          omega
        by_cases hg : tty_port_tty_get st = true
        · obtain ⟨pr, hpr, _⟩ := pass_to_tty_terminates k st u.transfer_buffer
            u.actual_length fuel hk hu.1 hu.2.1 hu.2.2
          obtain ⟨w, hw, hwp, hwu, hws⟩ := ih { r with pending := rest } pr.tty
            (usb_submit_urb (submit u) t u).2 hrest hlen
          refine ⟨w, ?_, hwp, hwu, ?_⟩
          · simp only [mdm6600_read_bulk_work, hp, usb_get_from_anchor, hg, if_true, hpr]
            exact hw
          · rw [hws]
            simp [usb_submit_urb]
        · obtain ⟨w, hw, hwp, hwu, hws⟩ := ih { r with pending := rest } st
            (usb_submit_urb (submit u) t u).2 hrest hlen
          refine ⟨w, ?_, hwp, hwu, ?_⟩
          · simp only [mdm6600_read_bulk_work, hp, usb_get_from_anchor, hg]
            exact hw
          · rw [hws]
            simp [usb_submit_urb]
  obtain ⟨w, hw, hwp, hwu, hws⟩ := main n r st t hbuf hn
  refine ⟨w, hw, hwp, hwu, hws, ?_⟩
  intro u
  rw [hws, List.count_append]

/-- Witness for C15: three pending handles, a tty with room for four bytes (so
the data is accepted only in part), and a transport that rejects the first
resubmission: all three handles are resubmitted, in order, and nothing is left
pending. -/
theorem read_bulk_work_drains_pending_witness :
    (mdm6600_read_bulk_work sample_sink (fun _ => true) (reject_at 200 (-ENOMEM)) 6 3
        pending_read_pool (4, []) idle_usb).map
        (fun w => (w.pool.pending, w.usb.submits.map Urb.addr, w.usb.in_flight, w.tty))
      = some ([], [200, 201, 202], [201, 202], (0, [1, 2, 3, 4])) ∧
    (∃ w, mdm6600_read_bulk_work sample_sink (fun _ => true) (reject_at 200 (-ENOMEM)) 6 3
        pending_read_pool (4, []) idle_usb = some w ∧
      w.pool.pending = [] ∧
      w.pool.urb = pending_read_pool.urb ∧
      w.usb.submits = idle_usb.submits ++ pending_read_pool.pending ∧
      (∀ u, w.usb.submits.count u
        = idle_usb.submits.count u + pending_read_pool.pending.count u)) :=
  ⟨by decide,
    read_bulk_work_drains_pending sample_sink (fun _ => true) (reject_at 200 (-ENOMEM)) 6 3
      pending_read_pool (4, []) idle_usb
      (by intro st bytes; simp only [sample_sink]; omega) (by decide) (by decide)⟩

end Mdm6600
